import Mathlib

/-!
Verification of the Alipay statement reconciliation engine
(`app/core/management/commands/provision_alipay_records.py`).

The Python module is shallowly embedded as follows:

* the Django store (`Account`, `Order`, `Transfer`, `Transaction` rows) is an
  explicit `DB` value; `objects.get` / `get_or_create` / `create` / `filter` /
  `delete` become list operations keyed on the same natural keys the code uses
  (`alipay_id`, `username`, `user_full_name`);
* `Decimal` amounts quantized to two places are embedded as integer cents
  (`ℤ`); the quantization itself (`Decimal.quantize` with the default
  `ROUND_HALF_EVEN`) is `parse_amount : ℚ → ℤ`;
* Python exceptions become an `EngineError` sum carried by `Except`; the two
  `assert` statements of the reconciliation code are `assertionFailed`, the
  `assert` closing `_parse_stream` is the distinct `fileDelimitersNotFound`
  (in Python both are `AssertionError`, the latter with the message
  `'File delimiters not found.'`);
* text handling (`str.split(',')`, `str.strip()`, the `in` substring test and
  the two `re.search` calls) is implemented over `List Char` so that every
  definition evaluates inside the kernel.
-/

namespace Fenxibao

/-! ### Text utilities (str.split, str.strip, substring tests) -/

/-- `p.listPrefixOf l` is Python `l.startswith(p)` on character lists. -/
def listPrefixOf : List Char → List Char → Bool
  | [], _ => true
  | _ :: _, [] => false
  | a :: as, b :: bs => a = b && listPrefixOf as bs

/-- `listInfixOf p l` is the Python substring test `p in l`. -/
def listInfixOf (p : List Char) : List Char → Bool
  | [] => p.isEmpty
  | c :: t => listPrefixOf p (c :: t) || listInfixOf p t

/-- Substring test on strings: Python `pat in s`. -/
def containsSubstr (s pat : String) : Bool :=
  listInfixOf pat.data s.data

/-- The characters after the first occurrence of `p` in the list, or `none`
when `p` does not occur.  Used to embed the two `re.search` calls, whose
patterns are a literal followed by a capture. -/
def afterFirst? (p : List Char) : List Char → Option (List Char)
  | [] => if p.isEmpty then some [] else none
  | c :: t =>
    if listPrefixOf p (c :: t) then some (List.drop p.length (c :: t))
    else afterFirst? p t

/-- Split a character list on a separator character, Python `s.split(sep)`
(`''.split(sep) == ['']`). -/
def splitOnChar (sep : Char) : List Char → List (List Char)
  | [] => [[]]
  | c :: rest =>
    match splitOnChar sep rest with
    | [] => [[]]
    | g :: gs => if c = sep then [] :: g :: gs else (c :: g) :: gs

/-- Python `str.strip()` (whitespace at both ends). -/
def stripChars (s : List Char) : List Char :=
  ((s.dropWhile Char.isWhitespace).reverse.dropWhile Char.isWhitespace).reverse

/-- `split_strip_row` from the module:
`[column.strip() for column in row.split(',')]`. -/
def split_strip_row (row : String) : List String :=
  (splitOnChar ',' row.data).map (fun g => String.mk (stripChars g))

/-! ### Decimal amounts

`parse_amount` in the source is `Decimal(amount).quantize(TWOPLACES)` with
`TWOPLACES = Decimal(10) ** -2`; the default decimal rounding mode is
`ROUND_HALF_EVEN`.  A quantized value is a whole number of cents, so the store
carries amounts as `ℤ` (cents) and `parse_amount` maps the exact rational value
of the decimal literal to cents with half-even rounding. -/

/-- Round a rational to the nearest integer, ties to the even integer
(the `ROUND_HALF_EVEN` mode of Python `Decimal`). -/
def roundHalfEven (q : ℚ) : ℤ :=
  let f := ⌊q⌋
  let r := q - (f : ℚ)
  if r < 1/2 then f
  else if 1/2 < r then f + 1
  else if f % 2 = 0 then f else f + 1

/-- `parse_amount`: the two-place quantization of a decimal value, in cents. -/
def parse_amount (q : ℚ) : ℤ :=
  roundHalfEven (100 * q)

/-- Digit run to a natural number (the lists fed to it are checked to be
nonempty all-digit runs first). -/
def digitsToNat (s : List Char) : ℕ :=
  s.foldl (fun n c => 10 * n + (c.toNat - 48)) 0

/-- Nonempty all-digit run. -/
def allDigits (s : List Char) : Bool :=
  !s.isEmpty && s.all Char.isDigit

/-- Exact rational value of a decimal string of the shape `digits[.digits]`,
`none` when the text is not of that shape.  This is the value
`Decimal(amount)` denotes on the amount columns of the statement files
(sign and exponent forms of the `Decimal` grammar are not modelled: the
statement amounts are plain unsigned fixed-point numerals). -/
def parseDecimal (s : String) : Option ℚ :=
  match splitOnChar '.' s.data with
  | [i] => if allDigits i then some (digitsToNat i : ℚ) else none
  | [i, f] =>
    if allDigits i && f.all Char.isDigit then
      some ((digitsToNat i : ℚ) + (digitsToNat f : ℚ) / (10 ^ f.length : ℚ))
    else none
  | _ => none

/-! ### Dates

`parse_date` returns `None` on text that does not match
`'%Y-%m-%d %H:%M:%S'` and the parsed datetime otherwise.  No claim inspects
the value of a date, so a valid date is kept as its source text; the format
check mirrors `strptime` (numeric fields in the y-m-d h:m:s shape with the
in-range checks on month, day, hour, minute and second). -/

/-- Format check for `'%Y-%m-%d %H:%M:%S'`. -/
def validDatetime (s : String) : Bool :=
  match splitOnChar ' ' s.data with
  | [d, t] =>
    match splitOnChar '-' d, splitOnChar ':' t with
    | [y, mo, da], [h, mi, se] =>
      allDigits y && allDigits mo && allDigits da &&
      allDigits h && allDigits mi && allDigits se &&
      decide (1 ≤ digitsToNat mo) && decide (digitsToNat mo ≤ 12) &&
      decide (1 ≤ digitsToNat da) && decide (digitsToNat da ≤ 31) &&
      decide (digitsToNat h ≤ 23) && decide (digitsToNat mi ≤ 59) &&
      decide (digitsToNat se ≤ 61)
    | _, _ => false
  | _ => false

/-- `parse_date`: `None` (here `none`) on malformed text, the date otherwise. -/
def parse_date (s : String) : Option String :=
  if validDatetime s then some s else none

/-! ### Enumerations of the record file -/

/-- `RawTransaction.Origin` (`交易来源地`). -/
inductive Origin
  | TAOBAO
  | ALIPAY
  | OTHER
deriving DecidableEq, Repr

/-- The closed vocabulary of `Origin`; an unlisted token makes the Python
enum constructor raise `ValueError`. -/
def Origin.ofString : String → Option Origin
  | "淘宝" => some .TAOBAO
  | "支付宝网站" => some .ALIPAY
  | "其他（包括阿里巴巴和外部商家）" => some .OTHER
  | _ => none

/-- `RawTransaction.FundsState` (`资金状态`). -/
inductive FundsState
  | PAID
  | RECEIVED
  | AWAITING_EXPENDITURE
  | FUNDS_TRANSFER
  | FROZEN
  | UNFROZEN
  | BLANK
deriving DecidableEq, Repr

/-- The closed vocabulary of `FundsState` (`BLANK` is the empty string); an
unlisted token makes the Python enum constructor raise `ValueError`. -/
def FundsState.ofString : String → Option FundsState
  | "已支出" => some .PAID
  | "已收入" => some .RECEIVED
  | "待支出" => some .AWAITING_EXPENDITURE
  | "资金转移" => some .FUNDS_TRANSFER
  | "冻结" => some .FROZEN
  | "解冻" => some .UNFROZEN
  | "" => some .BLANK
  | _ => none

/-- `RawTransaction.Label`: the sixteen required column labels. -/
inductive Label
  | ALIPAY_ID
  | ORDER_NUM
  | CREATED
  | PAID
  | MODIFIED
  | ORIGIN
  | CATEGORY
  | COUNTERPART
  | PRODUCT_NAME
  | AMOUNT
  | SIGN
  | STATE
  | SERVICE_FEE
  | REFUND_AMOUNT
  | NOTES
  | FUNDS_STATE
deriving DecidableEq, Repr

/-- The Chinese header text of each label (`Label.value` in the source). -/
def labelValue : Label → String
  | .ALIPAY_ID => "交易号"
  | .ORDER_NUM => "商家订单号"
  | .CREATED => "交易创建时间"
  | .PAID => "付款时间"
  | .MODIFIED => "最近修改时间"
  | .ORIGIN => "交易来源地"
  | .CATEGORY => "类型"
  | .COUNTERPART => "交易对方"
  | .PRODUCT_NAME => "商品名称"
  | .AMOUNT => "金额（元）"
  | .SIGN => "收/支"
  | .STATE => "交易状态"
  | .SERVICE_FEE => "服务费（元）"
  | .REFUND_AMOUNT => "成功退款（元）"
  | .NOTES => "备注"
  | .FUNDS_STATE => "资金状态"

/-- All sixteen labels, in declaration order (iteration order of the Python
`Label` enum). -/
def labelList : List Label :=
  [.ALIPAY_ID, .ORDER_NUM, .CREATED, .PAID, .MODIFIED, .ORIGIN, .CATEGORY,
   .COUNTERPART, .PRODUCT_NAME, .AMOUNT, .SIGN, .STATE, .SERVICE_FEE,
   .REFUND_AMOUNT, .NOTES, .FUNDS_STATE]

/-! ### The durable store -/

/-- An `Account` row: the statement owner carries a `username`; a counterpart
discovered from the free-text name column is a placeholder with only
`user_full_name`. -/
structure Account where
  id : ℕ
  username : Option String
  user_full_name : Option String
deriving DecidableEq, Repr

/-- An `Order` row, keyed by the platform order number (`alipay_id`). -/
structure Order where
  alipay_id : String
  name : String
  buyer : ℕ
  seller : ℕ
deriving DecidableEq, Repr

/-- A `Transfer` row, keyed by the platform transaction id; `sender` and
`receiver` reference `Account.id`. -/
structure Transfer where
  alipay_id : String
  sender : ℕ
  receiver : ℕ
deriving DecidableEq, Repr

/-- A `Transaction` row, keyed by the platform transaction id.  `order` and
`transfer` are the two nullable foreign keys, here the natural keys of the
referenced rows; `amount` is in cents. -/
structure Transaction where
  alipay_id : String
  creation_date : Option String
  payment_date : Option String
  last_modified_date : Option String
  amount : ℤ
  order : Option String
  transfer : Option String
  notes : String
deriving DecidableEq, Repr

/-- The relational store.  `nextId` provides fresh `Account` primary keys. -/
structure DB where
  accounts : List Account
  orders : List Order
  transfers : List Transfer
  transactions : List Transaction
  nextId : ℕ
deriving DecidableEq, Repr

/-- Exceptions of the engine.  `assertionFailed` is a Python `assert` inside
the reconciliation code, `fileDelimitersNotFound` the `assert` with message
`'File delimiters not found.'` closing `_parse_stream`.  `doesNotExist`,
`multipleObjectsReturned` and `integrityError` are the corresponding ORM
errors; `indexError`, `valueError`, `invalidOperation` and `attributeError`
the homonymous Python exceptions. -/
inductive EngineError
  | orphanTransaction
  | incompleteTransfer
  | unknownTransactionType
  | notImplemented
  | assertionFailed
  | fileDelimitersNotFound
  | doesNotExist
  | multipleObjectsReturned
  | integrityError
  | indexError
  | valueError
  | invalidOperation
  | attributeError
deriving DecidableEq, Repr

/-- `Transaction.objects.filter(alipay_id=a)` (the key is unique, so `get`
succeeds exactly when this list is a singleton). -/
def txnLookup (db : DB) (a : String) : List Transaction :=
  db.transactions.filter (fun t => t.alipay_id = a)

/-- `Transfer.objects.filter(alipay_id=a)`. -/
def transferLookup (db : DB) (a : String) : List Transfer :=
  db.transfers.filter (fun t => t.alipay_id = a)

/-- Dereference an `Account` foreign key. -/
def findAccount (db : DB) (i : ℕ) : Option Account :=
  db.accounts.find? (fun a => a.id = i)

/-- `Account.objects.get_or_create(user_full_name=name)`: `get` raises
`MultipleObjectsReturned` when several rows match, creates a placeholder row
(no username) when none does.  Returns the store and the account id. -/
def getOrCreateAccountByName (db : DB) (name : String) :
    Except EngineError (DB × ℕ) :=
  match db.accounts.filter (fun a => a.user_full_name = some name) with
  | [a] => .ok (db, a.id)
  | [] =>
    .ok ({ db with
            accounts := db.accounts ++ [⟨db.nextId, none, some name⟩],
            nextId := db.nextId + 1 },
         db.nextId)
  | _ => .error .multipleObjectsReturned

/-- `Account.objects.get_or_create(username=username)` (header extraction). -/
def getOrCreateAccountByUsername (db : DB) (username : String) :
    Except EngineError (DB × ℕ) :=
  match db.accounts.filter (fun a => a.username = some username) with
  | [a] => .ok (db, a.id)
  | [] =>
    .ok ({ db with
            accounts := db.accounts ++ [⟨db.nextId, some username, none⟩],
            nextId := db.nextId + 1 },
         db.nextId)
  | _ => .error .multipleObjectsReturned

/-! ### The parsed body row -/

/-- `AlipayRecord.RawTransaction` after `__init__`: the parsed fields of one
body row.  The statement owner (`self.account`) is passed to the processing
functions separately, as the owner's `Account.id`. -/
structure RawTransaction where
  alipay_id : String
  counterpart : String
  order_num : String
  product_name : String
  origin : Origin
  funds_state : FundsState
  created : Option String
  modified : Option String
  paid : Option String
  raw_amount : ℤ
  service_fee : ℤ
  refund_amount : ℤ
  notes : String
deriving DecidableEq, Repr

/-- The relevance filter of `dump`: funds state is exactly paid or received. -/
def relevant (r : RawTransaction) : Prop :=
  r.funds_state = FundsState.PAID ∨ r.funds_state = FundsState.RECEIVED

instance (r : RawTransaction) : Decidable (relevant r) := by
  unfold relevant; infer_instance

/-- The transfer classification of `_process_new_transaction`:
`origin == ALIPAY and not (order_num and not notes)` (Python truthiness of
the two strings spelled out). -/
def classifiesTransfer (r : RawTransaction) : Prop :=
  r.origin = Origin.ALIPAY ∧ ¬(r.order_num ≠ "" ∧ r.notes = "")

instance (r : RawTransaction) : Decidable (classifiesTransfer r) := by
  unfold classifiesTransfer; infer_instance

/-! ### The reconciliation engine -/

/-- `RawTransaction._create_transfer`: create the transfer with the statement
owner as sender when funds state is paid, as receiver when received; the
Python function falls through (returns `None`) on any other funds state. -/
def create_transfer (db : DB) (ownerId : ℕ) (r : RawTransaction)
    (counterpartId : ℕ) : DB × Option String :=
  if r.funds_state = FundsState.PAID then
    ({ db with transfers := db.transfers ++ [⟨r.alipay_id, ownerId, counterpartId⟩] },
     some r.alipay_id)
  else if r.funds_state = FundsState.RECEIVED then
    ({ db with transfers := db.transfers ++ [⟨r.alipay_id, counterpartId, ownerId⟩] },
     some r.alipay_id)
  else (db, none)

/-- `RawTransaction._update_or_create_order`: fetch the order by order number;
when it exists, overwrite its name with the row's product name exactly when
the product name is a substring of the stored name; otherwise create the
order with the statement owner as buyer and the counterpart as seller. -/
def update_or_create_order (db : DB) (buyerId : ℕ) (r : RawTransaction)
    (sellerId : ℕ) : Except EngineError (DB × String) :=
  match db.orders.filter (fun o => o.alipay_id = r.order_num) with
  | [o] =>
    if listInfixOf r.product_name.data o.name.data then
      .ok ({ db with orders := db.orders.map (fun o2 =>
               if o2.alipay_id = r.order_num then { o2 with name := r.product_name }
               else o2) },
           o.alipay_id)
    else .ok (db, o.alipay_id)
  | [] =>
    .ok ({ db with orders := db.orders ++ [⟨r.order_num, r.product_name, buyerId, sellerId⟩] },
         r.order_num)
  | _ => .error .multipleObjectsReturned

/-- `RawTransaction._create_transaction`: the single `Transaction` row for the
parsed row, with `amount = raw_amount + service_fee - refund_amount`. -/
def create_transaction (db : DB) (r : RawTransaction) (order : Option String)
    (transfer : Option String) : DB :=
  { db with transactions := db.transactions ++
      [{ alipay_id := r.alipay_id,
         creation_date := r.created,
         payment_date := r.paid,
         last_modified_date := r.modified,
         amount := r.raw_amount + r.service_fee - r.refund_amount,
         order := order,
         transfer := transfer,
         notes := r.notes }] }

/-- The deletion at the end of `_update_existing_transfer`: delete the former
placeholder account exactly when no transfer still references it. -/
def gcAccount (db : DB) (unknownId : ℕ) : DB :=
  if (db.transfers.filter (fun t => t.sender = unknownId ∨ t.receiver = unknownId)).length = 0 then
    { db with accounts := db.accounts.filter (fun a => ¬a.id = unknownId) }
  else db

/-- `RawTransaction._update_existing_transfer`: the transfer was first created
from the other party's statement; place the current owner into whichever slot
has no username (`assert` that the other slot has none too is a fatal
violation when both have one), save, then garbage-collect the former
placeholder account. -/
def update_existing_transfer (db : DB) (ownerId : ℕ) (t : Transfer) :
    Except EngineError DB :=
  match findAccount db t.sender, findAccount db t.receiver with
  | some s, some rc =>
    if s.username.isSome then
      if rc.username.isSome then .error .assertionFailed
      else
        let db1 := { db with transfers := db.transfers.map (fun t2 =>
          if t2.alipay_id = t.alipay_id then { t2 with receiver := ownerId } else t2) }
        .ok (gcAccount db1 rc.id)
    else if rc.username.isSome then
      let db1 := { db with transfers := db.transfers.map (fun t2 =>
        if t2.alipay_id = t.alipay_id then { t2 with sender := ownerId } else t2) }
      .ok (gcAccount db1 s.id)
    else .error .incompleteTransfer
  | _, _ => .error .doesNotExist

/-- `RawTransaction._process_new_transaction`: resolve or create the
counterpart by full name, classify the row as transfer / order / unknown and
create the backing entity plus its `Transaction`. -/
def process_new_transaction (db : DB) (ownerId : ℕ) (r : RawTransaction) :
    Except EngineError DB :=
  match getOrCreateAccountByName db r.counterpart with
  | .error e => .error e
  | .ok (db1, counterpartId) =>
    if classifiesTransfer r then
      let (db2, transferId) := create_transfer db1 ownerId r counterpartId
      .ok (create_transaction db2 r none transferId)
    else if r.order_num ≠ "" then
      match update_or_create_order db1 ownerId r counterpartId with
      | .ok (db2, orderId) => .ok (create_transaction db2 r (some orderId) none)
      | .error e => .error e
    else .error .unknownTransactionType

/-- `RawTransaction._process_existing_transaction`: only transfers can absorb
new information; an order needing a seller update is `NotImplementedError`, a
transaction with neither link is `OrphanTransactionError`, one with both is
the failing `assert`. -/
def process_existing_transaction (db : DB) (ownerId : ℕ) (txn : Transaction) :
    Except EngineError (DB × Bool) :=
  match txn.transfer with
  | some tid =>
    if txn.order.isSome then .error .assertionFailed
    else
      match transferLookup db tid with
      | [t] =>
        if ownerId = t.receiver ∨ ownerId = t.sender then .ok (db, false)
        else
          match update_existing_transfer db ownerId t with
          | .ok db1 => .ok (db1, true)
          | .error e => .error e
      | [] => .error .doesNotExist
      | _ => .error .multipleObjectsReturned
  | none =>
    if txn.order.isSome then .error .notImplemented
    else .error .orphanTransaction

/-- `RawTransaction.dump`: drop the row unless funds state is paid or
received; then update the existing transaction with that platform id, or
process the row as a new transaction.  The returned flag is the `dump`
return value (`False` exactly on the relevance filter). -/
def dump (db : DB) (ownerId : ℕ) (r : RawTransaction) :
    Except EngineError (DB × Bool) :=
  if relevant r then
    match txnLookup db r.alipay_id with
    | [txn] =>
      match process_existing_transaction db ownerId txn with
      | .ok (db1, _) => .ok (db1, true)
      | .error e => .error e
    | [] =>
      match process_new_transaction db ownerId r with
      | .ok db1 => .ok (db1, true)
      | .error e => .error e
    | _ => .error .multipleObjectsReturned
  else .ok (db, false)

/-- One archive run over already-parsed body rows of one statement owner. -/
def processRows (db : DB) (ownerId : ℕ) : List RawTransaction → Except EngineError DB
  | [] => .ok db
  | r :: rest =>
    match dump db ownerId r with
    | .ok (db1, _) => processRows db1 ownerId rest
    | .error e => .error e

/-! ### The section scanner and row parsers (`AlipayRecord`) -/

/-- `parse_amount` applied to a column text: `Decimal(text)` raises
`InvalidOperation` on malformed text, then the value is quantized. -/
def parse_amountE (s : String) : Except EngineError ℤ :=
  match parseDecimal s with
  | some q => .ok (parse_amount q)
  | none => .error .invalidOperation

/-- Equality test on `Except` values (needed to state concrete runs of the
engine). -/
instance {ε α : Type} [DecidableEq ε] [DecidableEq α] : DecidableEq (Except ε α)
  | .ok a, .ok b =>
    if h : a = b then .isTrue (by rw [h]) else .isFalse (by simp [h])
  | .ok _, .error _ => .isFalse (by simp)
  | .error _, .ok _ => .isFalse (by simp)
  | .error a, .error b =>
    if h : a = b then .isTrue (by rw [h]) else .isFalse (by simp [h])

/-- `file_labels.index(label.value)` on the split label row. -/
def lookupLabel (cols : List String) (l : Label) : Option ℕ :=
  cols.findIdx? (fun s => s = labelValue l)

/-- The Python labels dict: a finite map from label to column index. -/
def LabelMap : Type := List (Label × ℕ)

instance : DecidableEq LabelMap := by
  unfold LabelMap; infer_instance

/-- Dict access `labels[label]` (the dict always carries all sixteen keys, so
the default is unreachable). -/
def labelIdx (labels : LabelMap) (l : Label) : ℕ :=
  ((labels.find? (fun p => p.1 = l)).map (fun p => p.2)).getD 0

/-- `AlipayRecord._parse_labels_row`: locate all sixteen labels in the split
row (`list.index` raises `ValueError` on the first missing one) and build the
label-to-column dict. -/
def parse_labels_row (row : String) : Except EngineError LabelMap :=
  let cols := split_strip_row row
  if labelList.all (fun l => (lookupLabel cols l).isSome) then
    .ok (labelList.map (fun l => (l, (lookupLabel cols l).getD 0)))
  else .error .valueError

/-- `RawTransaction.__init__`: split and strip the row, then read each field
at its resolved column (an out-of-range column is `IndexError`), parsing the
two enumerations, the three dates and the three amounts, in the source's
field order. -/
def mkRawTransaction (row : String) (labels : LabelMap) :
    Except EngineError RawTransaction := do
  let cols := split_strip_row row
  let getCol := fun (i : ℕ) =>
    match cols[i]? with
    | some s => Except.ok s
    | none => Except.error EngineError.indexError
  let alipay_id ← getCol (labelIdx labels Label.ALIPAY_ID)
  let counterpart ← getCol (labelIdx labels Label.COUNTERPART)
  let order_num ← getCol (labelIdx labels Label.ORDER_NUM)
  let product_name ← getCol (labelIdx labels Label.PRODUCT_NAME)
  let originStr ← getCol (labelIdx labels Label.ORIGIN)
  let origin ← match Origin.ofString originStr with
    | some o => Except.ok o
    | none => Except.error EngineError.valueError
  let fundsStr ← getCol (labelIdx labels Label.FUNDS_STATE)
  let funds_state ← match FundsState.ofString fundsStr with
    | some f => Except.ok f
    | none => Except.error EngineError.valueError
  let created := parse_date (← getCol (labelIdx labels Label.CREATED))
  let modified := parse_date (← getCol (labelIdx labels Label.MODIFIED))
  let paid := parse_date (← getCol (labelIdx labels Label.PAID))
  let raw_amount ← parse_amountE (← getCol (labelIdx labels Label.AMOUNT))
  let service_fee ← parse_amountE (← getCol (labelIdx labels Label.SERVICE_FEE))
  let refund_amount ← parse_amountE (← getCol (labelIdx labels Label.REFUND_AMOUNT))
  let notes ← getCol (labelIdx labels Label.NOTES)
  Except.ok
    { alipay_id := alipay_id, counterpart := counterpart,
      order_num := order_num, product_name := product_name,
      origin := origin, funds_state := funds_state,
      created := created, modified := modified, paid := paid,
      raw_amount := raw_amount, service_fee := service_fee,
      refund_amount := refund_amount, notes := notes }

/-- `AlipayRecord.FileSection`. -/
inductive FileSection
  | HEADER
  | LABELS
  | BODY
  | FOOTER
deriving DecidableEq, Repr

/-- `AlipayRecord.HEADER_DELIMITER` (rows keep their trailing newline). -/
def HEADER_DELIMITER : String :=
  "---------------------------------交易记录明细列表------------------------------------\n"

/-- `AlipayRecord.FOOTER_DELIMITER`. -/
def FOOTER_DELIMITER : String :=
  "------------------------------------------------------------------------------------\n"

/-- The scan state of `_parse_stream`: the store, the current statement owner
(`self.account`), the resolved label mapping (`self.labels`) and the current
section. -/
structure ScanSt where
  db : DB
  owner : Option ℕ
  labels : Option LabelMap
  sec : FileSection
deriving DecidableEq

/-- `AlipayRecord._parse_header_row`: when the row carries `账号` and matches
`账号:\x5b(.*?)\x5d`, get-or-create the owner account by the bracketed
username. -/
def parse_header_row (db : DB) (owner : Option ℕ) (row : String) :
    Except EngineError (DB × Option ℕ) :=
  if containsSubstr row "账号" then
    match afterFirst? "账号:[".data row.data with
    | some rest =>
      if rest.contains ']' then
        match getOrCreateAccountByUsername db (String.mk (rest.takeWhile (fun c => c ≠ ']'))) with
        | .ok (db1, a) => .ok (db1, some a)
        | .error e => .error e
      else .ok (db, owner)
    | none => .ok (db, owner)
  else .ok (db, owner)

/-- `AlipayRecord._parse_footer_row`: when the row carries `用户` and matches
the lookbehind pattern `(?<=用户:).*`, store the rest of the line as the
owner's full name (`self.account` being `None` here is the Python
`AttributeError`). -/
def parse_footer_row (db : DB) (owner : Option ℕ) (row : String) :
    Except EngineError DB :=
  if containsSubstr row "用户" then
    match afterFirst? "用户:".data row.data with
    | some rest =>
      match owner with
      | some oid =>
        .ok { db with accounts := db.accounts.map (fun a =>
                if a.id = oid then
                  { a with user_full_name := some (String.mk (rest.takeWhile (fun c => c ≠ '\n'))) }
                else a) }
      | none => .error .attributeError
    | none => .ok db
  else .ok db

/-- `AlipayRecord._parse_body_row`: build the `RawTransaction` and `dump` it,
swallowing `IndexError` (short rows) only.  Modelled from the spec: the final
store schema is absent from the repository snapshot, so a body row reaching
the engine while no owner account has been discovered yet is modelled as the
store rejecting the null owner reference (`integrityError`); rows dropped by
the relevance filter never touch the store, as in `dump`. -/
def parse_body_row (db : DB) (owner : Option ℕ) (labels : LabelMap)
    (row : String) : Except EngineError DB :=
  let attempt : Except EngineError DB :=
    match mkRawTransaction row labels with
    | .error e => .error e
    | .ok r =>
      match owner with
      | some oid =>
        match dump db oid r with
        | .ok (db1, _) => .ok db1
        | .error e => .error e
      | none => if relevant r then .error .integrityError else .ok db
  match attempt with
  | .error .indexError => .ok db
  | .error e => .error e
  | .ok db1 => .ok db1

/-- One row of `_parse_stream`'s loop: the four-section state machine with the
two exact-match delimiter transitions. -/
def parse_stream_row (st : ScanSt) (row : String) : Except EngineError ScanSt :=
  match st.sec with
  | .HEADER =>
    if row = HEADER_DELIMITER then .ok { st with sec := .LABELS }
    else
      match parse_header_row st.db st.owner row with
      | .ok (db1, owner1) => .ok { st with db := db1, owner := owner1 }
      | .error e => .error e
  | .LABELS =>
    match parse_labels_row row with
    | .ok labels => .ok { st with labels := some labels, sec := .BODY }
    | .error e => .error e
  | .BODY =>
    if row = FOOTER_DELIMITER then .ok { st with sec := .FOOTER }
    else
      match st.labels with
      | some labels =>
        match parse_body_row st.db st.owner labels row with
        | .ok db1 => .ok { st with db := db1 }
        | .error e => .error e
      | none => .error .attributeError
  | .FOOTER =>
    match parse_footer_row st.db st.owner row with
    | .ok db1 => .ok { st with db := db1 }
    | .error e => .error e

/-- The loop of `_parse_stream` over the member's lines. -/
def scanRows (st : ScanSt) : List String → Except EngineError ScanSt
  | [] => .ok st
  | row :: rest =>
    match parse_stream_row st row with
    | .ok st1 => scanRows st1 rest
    | .error e => .error e

/-- `AlipayRecord._parse_stream`: run the section scanner over every line,
then `assert` that the footer section was reached. -/
def parse_stream (st : ScanSt) (rows : List String) : Except EngineError ScanSt :=
  match scanRows st rows with
  | .ok stF => if stF.sec = FileSection.FOOTER then .ok stF else .error .fileDelimitersNotFound
  | .error e => .error e

/-! ### Concrete store states and rows used by witnesses and counterexamples -/

/-- The empty store. -/
def dbEmpty : DB := ⟨[], [], [], [], 0⟩

/-- A statement owner account. -/
def ownerAcct : Account := ⟨0, some "123123123123123", none⟩

/-- A store holding only the statement owner. -/
def dbOwner : DB := ⟨[ownerAcct], [], [], [], 1⟩

/-- A parsed row that classifies as a transfer (platform-internal origin, no
order number), funds state paid. -/
def transferRow : RawTransaction :=
  { alipay_id := "T1", counterpart := "foo", order_num := "",
    product_name := "p", origin := Origin.ALIPAY,
    funds_state := FundsState.PAID, created := none, modified := none,
    paid := none, raw_amount := 11400, service_fee := 100,
    refund_amount := 200, notes := "" }

/-- A second transfer row, different platform id, same counterpart text. -/
def transferRow2 : RawTransaction :=
  { transferRow with alipay_id := "T2" }

/-- A parsed row with the amounts of the spec's worked example
(raw 114.00, fee 1.00, refund 2.00). -/
def amountRow : RawTransaction :=
  { transferRow with
    raw_amount := parse_amount 114,
    service_fee := parse_amount 1,
    refund_amount := parse_amount 2 }

/-- A frozen-funds row (relevance filter drops it). -/
def frozenRow : RawTransaction :=
  { transferRow with funds_state := FundsState.FROZEN }

/-- The label dict with the sixteen columns in declaration order. -/
def stdLabels : LabelMap := labelList.zip (List.range 16)

/-- A body row whose funds-state column holds a token outside the closed
vocabulary. -/
def bogusFundsRow : String :=
  "T9,789,2020-10-18 17:40:27,2020-10-18 17:40:28,2020-10-18 17:40:29,支付宝网站,即时到账交易,foo,bar,114.00,支出,交易成功,1.00,2.00,some notes,bogus"

/-- A store with one order, number 789, stored name `foo`. -/
def dbOneOrder : DB := ⟨[ownerAcct, ⟨1, none, some "bar seller"⟩],
  [⟨"789", "foo", 0, 1⟩], [], [], 2⟩

/-- An order row for the same order number 789 with product name `bar`. -/
def orderRowBar : RawTransaction :=
  { transferRow with
    alipay_id := "T3",
    origin := Origin.OTHER,
    order_num := "789",
    product_name := "bar",
    counterpart := "bar seller" }

/-- The owner store after resolving counterpart `foo`. -/
def dbOwnerFoo : DB := ⟨[ownerAcct, ⟨1, none, some "foo"⟩], [], [], [], 2⟩

/-- A placeholder counterpart account (full name only). -/
def placeholderAcct : Account := ⟨1, none, some "foo"⟩

/-- A second statement owner. -/
def owner2Acct : Account := ⟨2, some "999999", none⟩

/-- A stored transaction backing the transfer `T1`. -/
def storedTxnT1 : Transaction := ⟨"T1", none, none, none, 11300, none, some "T1", ""⟩

/-- The stored transfer `T1`: first owner as sender, placeholder receiver. -/
def storedTransferT1 : Transfer := ⟨"T1", 0, 1⟩

/-- A store where transfer `T1` has a known sender and a placeholder
receiver, and a second owner is registered. -/
def dbSharedTransfer : DB :=
  ⟨[ownerAcct, placeholderAcct, owner2Acct], [], [storedTransferT1], [storedTxnT1], 3⟩

/-- The same store plus an order whose seller is the placeholder account. -/
def dbOrderAndTransfer : DB :=
  ⟨[ownerAcct, placeholderAcct, owner2Acct], [⟨"789", "item", 0, 1⟩],
   [storedTransferT1], [storedTxnT1], 3⟩

/-- The store left by the second owner's `T1` row on `dbOrderAndTransfer`:
the placeholder is deleted although the order still references it. -/
def dbOrderAfterUpdate : DB :=
  ⟨[ownerAcct, owner2Acct], [⟨"789", "item", 0, 1⟩], [⟨"T1", 0, 2⟩],
   [storedTxnT1], 3⟩

/-- The store after importing the single transfer row `T1` into `dbOwner`. -/
def dbAfterTransferRow : DB :=
  ⟨[ownerAcct, ⟨1, none, some "foo"⟩], [], [⟨"T1", 0, 1⟩],
   [⟨"T1", none, none, none, 11300, none, some "T1", ""⟩], 2⟩

/-- The store after importing the single order row `T3`/789 into `dbOwner`. -/
def dbAfterOrderRow : DB :=
  ⟨[ownerAcct, ⟨1, none, some "bar seller"⟩], [⟨"789", "bar", 0, 1⟩], [],
   [⟨"T3", none, none, none, 11300, some "789", none, ""⟩], 2⟩

/-- A store holding two statement owners and nothing else. -/
def dbTwoOwners : DB := ⟨[ownerAcct, owner2Acct], [], [], [], 3⟩

/-- `dbTwoOwners` after the first owner's transfer row `T1` (counterpart
`foo` resolved to the fresh placeholder account 3). -/
def dbGc1 : DB :=
  ⟨[ownerAcct, owner2Acct, ⟨3, none, some "foo"⟩], [], [⟨"T1", 0, 3⟩],
   [storedTxnT1], 4⟩

/-- `dbGc1` after the second owner's row for the same transfer `T1`: the
placeholder slot is overwritten and account 3 is garbage-collected. -/
def dbGc2 : DB :=
  ⟨[ownerAcct, owner2Acct], [], [⟨"T1", 0, 2⟩], [storedTxnT1], 4⟩

/-- `dbGc2` after the first owner's second transfer row `T2`, whose equal
counterpart text `foo` now creates the fresh account 4. -/
def dbGc3 : DB :=
  ⟨[ownerAcct, owner2Acct, ⟨4, none, some "foo"⟩], [],
   [⟨"T1", 0, 2⟩, ⟨"T2", 0, 4⟩],
   [storedTxnT1, ⟨"T2", none, none, none, 11300, none, some "T2", ""⟩], 5⟩

/-- The empty scan state at the head of a text member. -/
def scanInit : ScanSt := ⟨dbEmpty, none, none, FileSection.HEADER⟩

/-- A label row holding the sixteen required labels in declaration order. -/
def stdLabelsRow : String :=
  "交易号,商家订单号,交易创建时间,付款时间,最近修改时间,交易来源地,类型,交易对方,商品名称,金额（元）,收/支,交易状态,服务费（元）,成功退款（元）,备注,资金状态"

/-! ### Quantization lemmas -/

/-- Half-even rounding fixes integers. -/
theorem roundHalfEven_intCast (n : ℤ) : roundHalfEven (n : ℚ) = n := by
  unfold roundHalfEven
  simp only [Int.floor_intCast, sub_self]
  norm_num

/-- `parse_amount` is exact on values that are whole numbers of cents. -/
theorem parse_amount_eq_of_cents {q : ℚ} {n : ℤ} (h : 100 * q = (n : ℚ)) :
    parse_amount q = n := by
  unfold parse_amount
  rw [h, roundHalfEven_intCast]

/-! ### Claim C4: the amount formula -/

/-- Claim C4: a `Transaction` created by the engine from a row whose three
amount fields are valid decimals stores
`amount = raw_amount + service_fee - refund_amount` exactly; when each input
is a whole number of cents the stored amount is the two-place quantization of
the exact sum `q1 + q2 - q3` (all amounts in cents). -/
theorem transaction_amount_formula
    (db : DB) (r : RawTransaction) (o t : Option String)
    (q1 q2 q3 : ℚ) (n1 n2 n3 : ℤ)
    (hq1 : 100 * q1 = (n1 : ℚ)) (hq2 : 100 * q2 = (n2 : ℚ))
    (hq3 : 100 * q3 = (n3 : ℚ))
    (h1 : r.raw_amount = parse_amount q1) (h2 : r.service_fee = parse_amount q2)
    (h3 : r.refund_amount = parse_amount q3) :
    ∃ txn, (create_transaction db r o t).transactions = db.transactions ++ [txn] ∧
      txn.amount = r.raw_amount + r.service_fee - r.refund_amount ∧
      txn.amount = parse_amount (q1 + q2 - q3) := by
  refine ⟨_, rfl, rfl, ?_⟩
  have e1 : r.raw_amount = n1 := by rw [h1, parse_amount_eq_of_cents hq1]
  have e2 : r.service_fee = n2 := by rw [h2, parse_amount_eq_of_cents hq2]
  have e3 : r.refund_amount = n3 := by rw [h3, parse_amount_eq_of_cents hq3]
  have hsum : 100 * (q1 + q2 - q3) = ((n1 + n2 - n3 : ℤ) : ℚ) := by
    push_cast
    rw [← hq1, ← hq2, ← hq3]
    ring
  rw [parse_amount_eq_of_cents hsum, e1, e2, e3]

/-- Claim C4 witness: raw 114.00, fee 1.00, refund 2.00 gives amount 113.00
(11300 cents). -/
theorem transaction_amount_formula_witness :
    (∃ txn, (create_transaction dbEmpty amountRow none none).transactions =
        dbEmpty.transactions ++ [txn] ∧
      txn.amount = amountRow.raw_amount + amountRow.service_fee - amountRow.refund_amount ∧
      txn.amount = parse_amount ((114 : ℚ) + 1 - 2)) ∧
    parse_amount ((114 : ℚ) + 1 - 2) = 11300 :=
  ⟨transaction_amount_formula dbEmpty amountRow none none 114 1 2 11400 100 200
      (by norm_num) (by norm_num) (by norm_num) rfl rfl rfl,
    parse_amount_eq_of_cents (by norm_num)⟩

/-! ### Claim C8: order name refinement -/

/-- Claim C8: an existing order hit by a later row with the same order
number keeps a single order row; its stored name is replaced by the row's
product name exactly when that product name is a substring of the stored
name, and is untouched otherwise. -/
theorem order_name_refinement
    (db : DB) (buyerId sellerId : ℕ) (r : RawTransaction) (o : Order)
    (hfound : db.orders.filter (fun o2 => o2.alipay_id = r.order_num) = [o]) :
    ∃ db2, update_or_create_order db buyerId r sellerId = .ok (db2, o.alipay_id) ∧
      db2.orders.length = db.orders.length ∧
      (listInfixOf r.product_name.data o.name.data = true →
        db2.orders.filter (fun o2 => o2.alipay_id = r.order_num) =
          [{ o with name := r.product_name }]) ∧
      (listInfixOf r.product_name.data o.name.data = false → db2 = db) := by
  have heq : update_or_create_order db buyerId r sellerId =
      (if listInfixOf r.product_name.data o.name.data = true then
        .ok ({ db with orders := db.orders.map (fun o2 =>
                 if o2.alipay_id = r.order_num then { o2 with name := r.product_name }
                 else o2) },
             o.alipay_id)
       else .ok (db, o.alipay_id)) := by
    unfold update_or_create_order
    rw [hfound]
  rw [heq]
  by_cases hinf : listInfixOf r.product_name.data o.name.data = true
  · rw [if_pos hinf]
    refine ⟨_, rfl, by simp, fun _ => ?_, fun hc => by rw [hinf] at hc; cases hc⟩
    have hpres : ∀ o2 : Order,
        ((fun o2 => if o2.alipay_id = r.order_num then { o2 with name := r.product_name }
           else o2) o2).alipay_id = o2.alipay_id := by
      intro o2
      by_cases h : o2.alipay_id = r.order_num <;> simp [h]
    rw [List.filter_map]
    have : (fun o2 : Order => decide (o2.alipay_id = r.order_num)) ∘
        (fun o2 => if o2.alipay_id = r.order_num then { o2 with name := r.product_name }
           else o2) = fun o2 : Order => decide (o2.alipay_id = r.order_num) := by
      funext o2
      simp only [Function.comp_apply, hpres]
    rw [this, hfound]
    have ho : o.alipay_id = r.order_num := by
      have : o ∈ db.orders.filter (fun o2 => o2.alipay_id = r.order_num) := by
        rw [hfound]; exact List.mem_singleton.mpr rfl
      simpa using (List.mem_filter.mp this).2
    simp [ho]
  · rw [if_neg hinf]
    exact ⟨db, rfl, rfl, fun hc => absurd hc hinf, fun _ => rfl⟩

/-- Claim C8 witness: stored name `foo`, new product name `bar` (not a
substring): the stored name survives and no second order appears. -/
theorem order_name_refinement_witness :
    ∃ db2, update_or_create_order dbOneOrder 0 orderRowBar 1 = .ok (db2, "789") ∧
      db2.orders.length = dbOneOrder.orders.length ∧
      (listInfixOf orderRowBar.product_name.data ("foo" : String).data = true →
        db2.orders.filter (fun o2 => o2.alipay_id = orderRowBar.order_num) =
          [{ alipay_id := "789", name := "bar", buyer := 0, seller := 1 }]) ∧
      (listInfixOf orderRowBar.product_name.data ("foo" : String).data = false →
        db2 = dbOneOrder) :=
  order_name_refinement dbOneOrder 0 1 orderRowBar (⟨"789", "foo", 0, 1⟩) (by decide)

/-! ### Claim C3: the relevance filter and unrecognized funds-state tokens -/

/-- Claim C3 (amended): a row whose funds state is any recognized state other
than paid or received is dropped with no store change, returning the
not-applied flag. -/
theorem dump_irrelevant_funds_state
    (db : DB) (ownerId : ℕ) (r : RawTransaction)
    (h : r.funds_state = FundsState.AWAITING_EXPENDITURE ∨
         r.funds_state = FundsState.FUNDS_TRANSFER ∨
         r.funds_state = FundsState.FROZEN ∨
         r.funds_state = FundsState.UNFROZEN ∨
         r.funds_state = FundsState.BLANK) :
    dump db ownerId r = .ok (db, false) := by
  have hnrel : ¬relevant r := by
    unfold relevant
    rcases h with h | h | h | h | h <;> rw [h] <;> intro hc <;>
      rcases hc with hc | hc <;> cases hc
  unfold dump
  rw [if_neg hnrel]

/-- Claim C3 witness: a frozen-funds row leaves the owner-only store
untouched and reports not applied. -/
theorem dump_irrelevant_funds_state_witness :
    dump dbOwner 0 frozenRow = .ok (dbOwner, false) :=
  dump_irrelevant_funds_state dbOwner 0 frozenRow (by decide)

/-- Claim C3 counterexample: a funds-state token outside the closed
vocabulary is not skipped: the enum constructor rejects it, and
`_parse_body_row` (which swallows `IndexError` only) turns the row into a
fatal `ValueError`. -/
theorem unknown_funds_state_token_is_error :
    FundsState.ofString "bogus" = none ∧
    mkRawTransaction bogusFundsRow stdLabels = .error .valueError ∧
    parse_body_row dbOwner (some 0) stdLabels bogusFundsRow = .error .valueError := by
  refine ⟨rfl, by decide, by decide⟩

/-! ### Claim C1: classification of new transactions -/

/-- Claim C1: a relevant row with no existing transaction is classified as a
transfer iff `origin = ALIPAY ∧ ¬(order number present ∧ notes empty)` — the
statement owner being the sender on paid funds and the receiver on received
funds — otherwise as an order iff an order number is present, otherwise the
unknown-transaction-type error is raised. -/
theorem process_new_classification
    (db db1 : DB) (ownerId cid : ℕ) (r : RawTransaction)
    (hrel : relevant r)
    (hnew : txnLookup db r.alipay_id = [])
    (hacct : getOrCreateAccountByName db r.counterpart = .ok (db1, cid)) :
    (classifiesTransfer r →
      (r.funds_state = FundsState.PAID →
        dump db ownerId r = .ok (create_transaction
          { db1 with transfers := db1.transfers ++ [⟨r.alipay_id, ownerId, cid⟩] }
          r none (some r.alipay_id), true)) ∧
      (r.funds_state = FundsState.RECEIVED →
        dump db ownerId r = .ok (create_transaction
          { db1 with transfers := db1.transfers ++ [⟨r.alipay_id, cid, ownerId⟩] }
          r none (some r.alipay_id), true))) ∧
    (¬classifiesTransfer r → r.order_num ≠ "" →
      dump db ownerId r =
        (match update_or_create_order db1 ownerId r cid with
         | .ok (db2, oid) => .ok (create_transaction db2 r (some oid) none, true)
         | .error e => .error e)) ∧
    (¬classifiesTransfer r → r.order_num = "" →
      dump db ownerId r = .error .unknownTransactionType) := by
  have hdump : dump db ownerId r =
      (match process_new_transaction db ownerId r with
       | .ok db2 => .ok (db2, true)
       | .error e => .error e) := by
    unfold dump
    rw [if_pos hrel, hnew]
  refine ⟨fun hcls => ⟨fun hP => ?_, fun hR => ?_⟩,
          fun hncls hord => ?_, fun hncls hord => ?_⟩
  · have hct : create_transfer db1 ownerId r cid =
        ({ db1 with transfers := db1.transfers ++ [⟨r.alipay_id, ownerId, cid⟩] },
         some r.alipay_id) := by
      unfold create_transfer
      rw [if_pos hP]
    have hpn : process_new_transaction db ownerId r = .ok (create_transaction
        { db1 with transfers := db1.transfers ++ [⟨r.alipay_id, ownerId, cid⟩] }
        r none (some r.alipay_id)) := by
      simp only [process_new_transaction, hacct, if_pos hcls, hct]
    rw [hdump, hpn]
  · have hnp : r.funds_state ≠ FundsState.PAID := by
      rw [hR]; intro hc; cases hc
    have hct : create_transfer db1 ownerId r cid =
        ({ db1 with transfers := db1.transfers ++ [⟨r.alipay_id, cid, ownerId⟩] },
         some r.alipay_id) := by
      unfold create_transfer
      rw [if_neg hnp, if_pos hR]
    have hpn : process_new_transaction db ownerId r = .ok (create_transaction
        { db1 with transfers := db1.transfers ++ [⟨r.alipay_id, cid, ownerId⟩] }
        r none (some r.alipay_id)) := by
      simp only [process_new_transaction, hacct, if_pos hcls, hct]
    rw [hdump, hpn]
  · have hpn : process_new_transaction db ownerId r =
        (match update_or_create_order db1 ownerId r cid with
         | .ok (db2, oid) => .ok (create_transaction db2 r (some oid) none)
         | .error e => .error e) := by
      simp only [process_new_transaction, hacct, if_neg hncls, if_pos hord]
    rw [hdump, hpn]
    cases update_or_create_order db1 ownerId r cid with
    | ok p => cases p; rfl
    | error e => rfl
  · have hnord : ¬(r.order_num ≠ "") := fun hc => hc hord
    have hpn : process_new_transaction db ownerId r = .error .unknownTransactionType := by
      simp only [process_new_transaction, hacct, if_neg hncls, if_neg hnord]
    rw [hdump, hpn]

/-- Claim C1 witness: the paid platform-internal row with empty order number
creates the owner-as-sender transfer and its transaction. -/
theorem process_new_classification_witness :
    dump dbOwner 0 transferRow = .ok (create_transaction
      { dbOwnerFoo with transfers := dbOwnerFoo.transfers ++ [⟨"T1", 0, 1⟩] }
      transferRow none (some "T1"), true) :=
  ((process_new_classification dbOwner dbOwnerFoo 0 1 transferRow
    (by decide) (by decide) (by decide)).1 (by decide)).1 rfl

/-! ### Claim C10: counterpart resolution is by full-name equality alone -/

/-- Every branch of `_update_or_create_order` leaves the account table (and
the fresh-id counter) unchanged. -/
theorem update_or_create_order_accounts
    (db : DB) (b s : ℕ) (r : RawTransaction) (db2 : DB) (oid : String)
    (h : update_or_create_order db b r s = .ok (db2, oid)) :
    db2.accounts = db.accounts ∧ db2.nextId = db.nextId := by
  unfold update_or_create_order at h
  split at h
  · split at h <;>
      (simp only [Except.ok.injEq, Prod.mk.injEq] at h
       obtain ⟨⟨h1, _⟩, _⟩ := And.intro h trivial
       rw [← h1]
       exact ⟨rfl, rfl⟩)
  · simp only [Except.ok.injEq, Prod.mk.injEq] at h
    obtain ⟨h1, _⟩ := h
    rw [← h1]
    exact ⟨rfl, rfl⟩
  · cases h

/-- `_create_transfer` leaves the account table and counter unchanged. -/
theorem create_transfer_accounts (db : DB) (o : ℕ) (r : RawTransaction) (c : ℕ) :
    ((create_transfer db o r c).1).accounts = db.accounts ∧
    ((create_transfer db o r c).1).nextId = db.nextId := by
  unfold create_transfer
  split
  · exact ⟨rfl, rfl⟩
  · split
    · exact ⟨rfl, rfl⟩
    · exact ⟨rfl, rfl⟩

/-- After `_process_new_transaction`, the account table is exactly the one
produced by the counterpart get-or-create. -/
theorem process_new_transaction_accounts
    (db dbA db1 : DB) (ownerId cid : ℕ) (r : RawTransaction)
    (hacct : getOrCreateAccountByName db r.counterpart = .ok (dbA, cid))
    (h : process_new_transaction db ownerId r = .ok db1) :
    db1.accounts = dbA.accounts ∧ db1.nextId = dbA.nextId := by
  simp only [process_new_transaction, hacct] at h
  split at h
  · rcases hct : create_transfer dbA ownerId r cid with ⟨db2, tid⟩
    rw [hct] at h
    simp only [Except.ok.injEq] at h
    rw [← h]
    have := create_transfer_accounts dbA ownerId r cid
    rw [hct] at this
    exact this
  · split at h
    · cases hu : update_or_create_order dbA ownerId r cid with
      | ok p =>
        rcases p with ⟨db2, oid⟩
        rw [hu] at h
        simp only [Except.ok.injEq] at h
        rw [← h]
        exact update_or_create_order_accounts dbA ownerId cid r db2 oid hu
      | error e => rw [hu] at h; cases h
    · cases h

/-- Claim C10 (amended): a new-transaction row resolves (or creates) its
counterpart account purely by full-name equality, and a second
new-transaction row carrying the same counterpart text, processed on the
store the first row produced, resolves to the very same account id without
creating anything.  (The sharing does not extend across an intervening
placeholder garbage collection — see the counterexample.) -/
theorem counterpart_resolution_by_name
    (db dbA db1 : DB) (ownerId cid : ℕ) (r1 r2 : RawTransaction)
    (hacct : getOrCreateAccountByName db r1.counterpart = .ok (dbA, cid))
    (h1 : process_new_transaction db ownerId r1 = .ok db1)
    (hname : r2.counterpart = r1.counterpart) :
    getOrCreateAccountByName db1 r2.counterpart = .ok (db1, cid) := by
  obtain ⟨hAcc, _⟩ := process_new_transaction_accounts db dbA db1 ownerId cid r1 hacct h1
  rw [hname]
  rcases hf : db.accounts.filter (fun a => a.user_full_name = some r1.counterpart)
    with _ | ⟨a, rest⟩
  · unfold getOrCreateAccountByName at hacct
    rw [hf] at hacct
    simp only [Except.ok.injEq, Prod.mk.injEq] at hacct
    obtain ⟨hdbA, hcid⟩ := hacct
    have hfilter : db1.accounts.filter (fun a => a.user_full_name = some r1.counterpart) =
        [⟨db.nextId, none, some r1.counterpart⟩] := by
      rw [hAcc, ← hdbA]
      simp only [List.filter_append, hf, List.nil_append]
      simp
    unfold getOrCreateAccountByName
    rw [hfilter]
    show Except.ok (db1, db.nextId) = Except.ok (db1, cid)
    rw [hcid]
  · cases rest with
    | nil =>
      unfold getOrCreateAccountByName at hacct
      rw [hf] at hacct
      simp only [Except.ok.injEq, Prod.mk.injEq] at hacct
      obtain ⟨hdbA, hcid⟩ := hacct
      have hfilter : db1.accounts.filter (fun a => a.user_full_name = some r1.counterpart) =
          [a] := by
        rw [hAcc, ← hdbA, hf]
      unfold getOrCreateAccountByName
      rw [hfilter]
      show Except.ok (db1, a.id) = Except.ok (db1, cid)
      rw [hcid]
    | cons b bs =>
      unfold getOrCreateAccountByName at hacct
      rw [hf] at hacct
      cases hacct

/-- Claim C10 witness: two transfer rows with distinct platform ids and the
same counterpart text `foo` resolve to the single account created by the
first. -/
theorem counterpart_resolution_by_name_witness :
    getOrCreateAccountByName
      (create_transaction
        { dbOwnerFoo with transfers := dbOwnerFoo.transfers ++ [⟨"T1", 0, 1⟩] }
        transferRow none (some "T1"))
      transferRow2.counterpart =
    .ok (create_transaction
      { dbOwnerFoo with transfers := dbOwnerFoo.transfers ++ [⟨"T1", 0, 1⟩] }
      transferRow none (some "T1"), 1) :=
  counterpart_resolution_by_name dbOwner dbOwnerFoo
    (create_transaction
      { dbOwnerFoo with transfers := dbOwnerFoo.transfers ++ [⟨"T1", 0, 1⟩] }
      transferRow none (some "T1"))
    0 1 transferRow transferRow2 (by decide) (by decide) rfl

/-- Claim C10 counterexample: equal counterpart names do not always share
one Account row across runs.  The first owner's row `T1` resolves `foo` to
account 3; the second owner's statement for the same transfer overwrites the
placeholder slot and garbage-collects account 3; the first owner's later row
`T2`, with the equal counterpart text `foo`, then creates the fresh account
4 — its transfer references a different Account row, and account 3 is gone.
A footer-created duplicate full name would instead make the resolution raise
`MultipleObjectsReturned`. -/
theorem equal_names_new_account_after_gc :
    transferRow2.counterpart = transferRow.counterpart ∧
    dump dbTwoOwners 0 transferRow = .ok (dbGc1, true) ∧
    transferLookup dbGc1 "T1" = [⟨"T1", 0, 3⟩] ∧
    dump dbGc1 2 transferRow = .ok (dbGc2, true) ∧
    dump dbGc2 0 transferRow2 = .ok (dbGc3, true) ∧
    transferLookup dbGc3 "T2" = [⟨"T2", 0, 4⟩] ∧
    (4 : ℕ) ≠ 3 ∧
    (∀ a ∈ dbGc3.accounts, a.id ≠ 3) := by
  refine ⟨rfl, by decide, by decide, by decide, by decide, by decide,
    by decide, by decide⟩

/-! ### Frame lemmas: which tables each store operation can touch -/

/-- Counterpart get-or-create only reads or appends to the account table. -/
theorem getOrCreateAccountByName_frame (db dbA : DB) (n : String) (cid : ℕ)
    (h : getOrCreateAccountByName db n = .ok (dbA, cid)) :
    dbA.orders = db.orders ∧ dbA.transfers = db.transfers ∧
    dbA.transactions = db.transactions ∧
    (dbA.accounts = db.accounts ∨
      dbA.accounts = db.accounts ++ [⟨db.nextId, none, some n⟩]) := by
  unfold getOrCreateAccountByName at h
  split at h
  · simp only [Except.ok.injEq, Prod.mk.injEq] at h
    obtain ⟨h1, _⟩ := h
    rw [← h1]
    exact ⟨rfl, rfl, rfl, Or.inl rfl⟩
  · simp only [Except.ok.injEq, Prod.mk.injEq] at h
    obtain ⟨h1, _⟩ := h
    rw [← h1]
    exact ⟨rfl, rfl, rfl, Or.inr rfl⟩
  · cases h

/-- `_create_transfer` only touches the transfer table. -/
theorem create_transfer_frame (db : DB) (o : ℕ) (r : RawTransaction) (c : ℕ) :
    ((create_transfer db o r c).1).accounts = db.accounts ∧
    ((create_transfer db o r c).1).orders = db.orders ∧
    ((create_transfer db o r c).1).transactions = db.transactions ∧
    ((create_transfer db o r c).1).nextId = db.nextId := by
  unfold create_transfer
  split
  · exact ⟨rfl, rfl, rfl, rfl⟩
  · split
    · exact ⟨rfl, rfl, rfl, rfl⟩
    · exact ⟨rfl, rfl, rfl, rfl⟩

/-- On a relevant row `_create_transfer` appends one transfer carrying the
row's platform id, the statement owner on one side, and returns it. -/
theorem create_transfer_of_relevant (db : DB) (o : ℕ) (r : RawTransaction)
    (c : ℕ) (hrel : relevant r) :
    ∃ tr : Transfer, create_transfer db o r c =
      ({ db with transfers := db.transfers ++ [tr] }, some r.alipay_id) ∧
      tr.alipay_id = r.alipay_id ∧ (o = tr.sender ∨ o = tr.receiver) := by
  rcases hrel with h | h
  · exact ⟨⟨r.alipay_id, o, c⟩, by unfold create_transfer; rw [if_pos h], rfl,
      Or.inl rfl⟩
  · have hnp : r.funds_state ≠ FundsState.PAID := by rw [h]; intro hc; cases hc
    exact ⟨⟨r.alipay_id, c, o⟩,
      by unfold create_transfer; rw [if_neg hnp, if_pos h], rfl, Or.inr rfl⟩

/-- `_update_or_create_order` only touches the order table. -/
theorem update_or_create_order_frame (db : DB) (b sid : ℕ) (r : RawTransaction)
    (db2 : DB) (oid : String)
    (h : update_or_create_order db b r sid = .ok (db2, oid)) :
    db2.accounts = db.accounts ∧ db2.transfers = db.transfers ∧
    db2.transactions = db.transactions ∧ db2.nextId = db.nextId := by
  unfold update_or_create_order at h
  split at h
  · split at h <;>
      (simp only [Except.ok.injEq, Prod.mk.injEq] at h
       obtain ⟨h1, _⟩ := h
       rw [← h1]
       exact ⟨rfl, rfl, rfl, rfl⟩)
  · simp only [Except.ok.injEq, Prod.mk.injEq] at h
    obtain ⟨h1, _⟩ := h
    rw [← h1]
    exact ⟨rfl, rfl, rfl, rfl⟩
  · cases h

/-- The placeholder garbage collection only touches the account table. -/
theorem gcAccount_frame (db : DB) (u : ℕ) :
    (gcAccount db u).orders = db.orders ∧ (gcAccount db u).transfers = db.transfers ∧
    (gcAccount db u).transactions = db.transactions ∧ (gcAccount db u).nextId = db.nextId := by
  unfold gcAccount
  split
  · exact ⟨rfl, rfl, rfl, rfl⟩
  · exact ⟨rfl, rfl, rfl, rfl⟩

/-- `_update_existing_transfer` never touches orders, transactions or the id
counter. -/
theorem update_existing_transfer_frame (db : DB) (o : ℕ) (t : Transfer) (db2 : DB)
    (h : update_existing_transfer db o t = .ok db2) :
    db2.orders = db.orders ∧ db2.transactions = db.transactions ∧
    db2.nextId = db.nextId := by
  unfold update_existing_transfer at h
  split at h
  · split at h
    · split at h
      · cases h
      · simp only [Except.ok.injEq] at h
        rw [← h]
        obtain ⟨g1, _, g3, g4⟩ := gcAccount_frame
          { db with transfers := db.transfers.map (fun t2 =>
              if t2.alipay_id = t.alipay_id then { t2 with receiver := o } else t2) } _
        exact ⟨g1, g3, g4⟩
    · split at h
      · simp only [Except.ok.injEq] at h
        rw [← h]
        obtain ⟨g1, _, g3, g4⟩ := gcAccount_frame
          { db with transfers := db.transfers.map (fun t2 =>
              if t2.alipay_id = t.alipay_id then { t2 with sender := o } else t2) } _
        exact ⟨g1, g3, g4⟩
      · cases h
  · cases h

/-- `_process_existing_transaction` never touches orders or transactions. -/
theorem process_existing_frame (db : DB) (o : ℕ) (txn : Transaction) (db2 : DB)
    (c : Bool) (h : process_existing_transaction db o txn = .ok (db2, c)) :
    db2.orders = db.orders ∧ db2.transactions = db.transactions ∧
    db2.nextId = db.nextId := by
  unfold process_existing_transaction at h
  cases hot : txn.transfer with
  | none =>
    simp only [hot] at h
    by_cases hord : txn.order.isSome
    · rw [if_pos hord] at h; cases h
    · rw [if_neg hord] at h; cases h
  | some tid =>
    simp only [hot] at h
    by_cases hord : txn.order.isSome
    · rw [if_pos hord] at h; cases h
    · rw [if_neg hord] at h
      rcases hlkt : transferLookup db tid with _ | ⟨t, rest⟩
      · simp only [hlkt] at h
        cases h
      · cases rest with
        | nil =>
          simp only [hlkt] at h
          by_cases hparty : o = t.receiver ∨ o = t.sender
          · rw [if_pos hparty] at h
            simp only [Except.ok.injEq, Prod.mk.injEq] at h
            obtain ⟨h1, _⟩ := h
            rw [← h1]
            exact ⟨rfl, rfl, rfl⟩
          · rw [if_neg hparty] at h
            cases hu : update_existing_transfer db o t with
            | ok dbU =>
              simp only [hu, Except.ok.injEq, Prod.mk.injEq] at h
              rw [← h.1]
              exact update_existing_transfer_frame db o t dbU hu
            | error e =>
              simp only [hu] at h
              cases h
        | cons t2 rest2 =>
          simp only [hlkt] at h
          cases h

/-- One successful run of `_process_new_transaction`: the counterpart is
resolved by full name, the row classifies as transfer or as order, and the
result store is the corresponding creation. -/
theorem process_new_run (db db1 : DB) (ownerId : ℕ) (r : RawTransaction)
    (hrel : relevant r)
    (h : process_new_transaction db ownerId r = .ok db1) :
    ∃ dbA cid, getOrCreateAccountByName db r.counterpart = .ok (dbA, cid) ∧
      ((classifiesTransfer r ∧ ∃ tr : Transfer,
          tr.alipay_id = r.alipay_id ∧ (ownerId = tr.sender ∨ ownerId = tr.receiver) ∧
          db1 = create_transaction { dbA with transfers := dbA.transfers ++ [tr] }
            r none (some r.alipay_id)) ∨
       (¬classifiesTransfer r ∧ r.order_num ≠ "" ∧ ∃ db2 oid,
          update_or_create_order dbA ownerId r cid = .ok (db2, oid) ∧
          db1 = create_transaction db2 r (some oid) none)) := by
  cases hacct : getOrCreateAccountByName db r.counterpart with
  | error e =>
    unfold process_new_transaction at h
    rw [hacct] at h
    cases h
  | ok p =>
    rcases p with ⟨dbA, cid⟩
    refine ⟨dbA, cid, rfl, ?_⟩
    simp only [process_new_transaction, hacct] at h
    by_cases hcls : classifiesTransfer r
    · rw [if_pos hcls] at h
      obtain ⟨tr, hct, htr1, htr2⟩ := create_transfer_of_relevant dbA ownerId r cid hrel
      rw [hct] at h
      simp only [Except.ok.injEq] at h
      exact Or.inl ⟨hcls, tr, htr1, htr2, h.symm⟩
    · rw [if_neg hcls] at h
      by_cases hord : r.order_num ≠ ""
      · rw [if_pos hord] at h
        cases hu : update_or_create_order dbA ownerId r cid with
        | ok q =>
          rcases q with ⟨db2, oid⟩
          rw [hu] at h
          simp only [Except.ok.injEq] at h
          exact Or.inr ⟨hcls, hord, db2, oid, rfl, h.symm⟩
        | error e => rw [hu] at h; cases h
      · rw [if_neg hord] at h
        cases h

/-! ### Claim C5: exclusivity of order / transfer on every transaction -/

/-- Exactly one of the two links is set. -/
def ExactlyOne (txn : Transaction) : Prop :=
  (txn.order.isSome ∧ txn.transfer = none) ∨ (txn.order = none ∧ txn.transfer.isSome)

/-- Every stored transaction has exactly one of order / transfer. -/
def Exclusive (db : DB) : Prop :=
  ∀ txn ∈ db.transactions, ExactlyOne txn

/-- Claim C5: processing a row preserves the exclusivity invariant, and a
stored transaction violating it makes processing fail with the assertion
failure (both links) or the orphan-transaction error (neither), never a
silent pass. -/
theorem transaction_exclusivity
    (db : DB) (ownerId : ℕ) (r : RawTransaction) (hex : Exclusive db) :
    (∀ db1 b, dump db ownerId r = .ok (db1, b) → Exclusive db1) ∧
    (∀ txn, relevant r → txnLookup db r.alipay_id = [txn] → ¬ExactlyOne txn →
      dump db ownerId r = .error .assertionFailed ∨
      dump db ownerId r = .error .orphanTransaction) := by
  constructor
  · intro db1 b h
    unfold dump at h
    by_cases hrel : relevant r
    · rw [if_pos hrel] at h
      rcases hlk : txnLookup db r.alipay_id with _ | ⟨txn, rest⟩
      · simp only [hlk] at h
        cases hpn : process_new_transaction db ownerId r with
        | ok db2 =>
          simp only [hpn, Except.ok.injEq, Prod.mk.injEq] at h
          obtain ⟨h1, _⟩ := h
          rw [← h1]
          obtain ⟨dbA, cid, hacct, hcase⟩ := process_new_run db db2 ownerId r hrel hpn
          obtain ⟨_, _, hTx, _⟩ := getOrCreateAccountByName_frame db dbA r.counterpart cid hacct
          rcases hcase with ⟨_, tr, _, _, hdb2⟩ | ⟨_, _, dbO, oid, hu, hdb2⟩
          · rw [hdb2]
            intro t2 ht2
            simp only [create_transaction, List.mem_append, List.mem_singleton] at ht2
            rcases ht2 with ht2 | ht2
            · exact hex t2 (by rw [← hTx]; exact ht2)
            · rw [ht2]
              exact Or.inr ⟨rfl, rfl⟩
          · obtain ⟨_, _, hTx2, _⟩ := update_or_create_order_frame dbA ownerId cid r dbO oid hu
            rw [hdb2]
            intro t2 ht2
            simp only [create_transaction, List.mem_append, List.mem_singleton] at ht2
            rcases ht2 with ht2 | ht2
            · exact hex t2 (by rw [← hTx, ← hTx2]; exact ht2)
            · rw [ht2]
              exact Or.inl ⟨rfl, rfl⟩
        | error e =>
          simp only [hpn] at h
          cases h
      · cases rest with
        | nil =>
          simp only [hlk] at h
          cases hpe : process_existing_transaction db ownerId txn with
          | ok p =>
            rcases p with ⟨db2, c⟩
            simp only [hpe, Except.ok.injEq, Prod.mk.injEq] at h
            obtain ⟨h1, _⟩ := h
            rw [← h1]
            obtain ⟨_, hTx, _⟩ := process_existing_frame db ownerId txn db2 c hpe
            intro t2 ht2
            exact hex t2 (by rw [← hTx]; exact ht2)
          | error e =>
            simp only [hpe] at h
            cases h
        | cons t2 rest2 =>
          simp only [hlk] at h
          cases h
    · rw [if_neg hrel] at h
      simp only [Except.ok.injEq, Prod.mk.injEq] at h
      obtain ⟨h1, _⟩ := h
      rw [← h1]
      exact hex
  · intro txn hrel hlk hviol
    have hdump : dump db ownerId r =
        (match process_existing_transaction db ownerId txn with
         | .ok (db1, _) => .ok (db1, true)
         | .error e => .error e) := by
      unfold dump
      rw [if_pos hrel, hlk]
    cases hot : txn.transfer with
    | some tid =>
      have hord : txn.order.isSome := by
        by_contra hno
        exact hviol (Or.inr ⟨Option.not_isSome_iff_eq_none.mp hno, by rw [hot]; rfl⟩)
      left
      have hpe : process_existing_transaction db ownerId txn =
          .error .assertionFailed := by
        simp [process_existing_transaction, hot, hord]
      rw [hdump, hpe]
    | none =>
      have hord : txn.order = none := by
        by_contra hno
        exact hviol (Or.inl ⟨Option.ne_none_iff_isSome.mp hno, hot⟩)
      right
      have hpe : process_existing_transaction db ownerId txn =
          .error .orphanTransaction := by
        simp [process_existing_transaction, hot, hord]
      rw [hdump, hpe]

/-- Claim C5 witness: importing the paid transfer row into the trivially
exclusive owner-only store leaves a store where every transaction still has
exactly one of order / transfer. -/
theorem transaction_exclusivity_witness :
    Exclusive dbAfterTransferRow :=
  (transaction_exclusivity dbOwner 0 transferRow
    (by intro txn h; cases h)).1 dbAfterTransferRow true (by decide)

/-! ### Claim C9: the section scanner's terminal-footer check -/

/-- Claim C9: when the line stream is exhausted without an earlier fatal
error, `_parse_stream` raises the structural delimiter error exactly when the
scanner has not reached the footer section; reaching it completes the scan
without this error. -/
theorem parse_stream_footer_check
    (st0 stF : ScanSt) (rows : List String)
    (h : scanRows st0 rows = .ok stF) :
    (stF.sec ≠ FileSection.FOOTER →
      parse_stream st0 rows = .error .fileDelimitersNotFound) ∧
    (stF.sec = FileSection.FOOTER → parse_stream st0 rows = .ok stF) := by
  have heq : parse_stream st0 rows =
      (if stF.sec = FileSection.FOOTER then .ok stF
       else .error .fileDelimitersNotFound) := by
    unfold parse_stream
    rw [h]
  constructor <;> intro hs
  · rw [heq, if_neg hs]
  · rw [heq, if_pos hs]

/-- Claim C9 witness: a member with no delimiters at all aborts with the
structural error; a member holding the header delimiter, a complete label
row and the footer delimiter completes the scan. -/
theorem parse_stream_footer_check_witness :
    parse_stream scanInit ["hello\n"] = .error .fileDelimitersNotFound ∧
    parse_stream scanInit [HEADER_DELIMITER, stdLabelsRow, FOOTER_DELIMITER] =
      .ok ⟨dbEmpty, none, some stdLabels, FileSection.FOOTER⟩ :=
  ⟨(parse_stream_footer_check scanInit scanInit ["hello\n"] (by decide)).1
      (by decide),
   (parse_stream_footer_check scanInit
      ⟨dbEmpty, none, some stdLabels, FileSection.FOOTER⟩
      [HEADER_DELIMITER, stdLabelsRow, FOOTER_DELIMITER] (by decide)).2 rfl⟩

/-! ### Garbage-collection and lookup lemmas -/

/-- An account with a different id survives the placeholder collection. -/
theorem mem_gcAccount (db : DB) (u : ℕ) (a : Account) (ha : a ∈ db.accounts)
    (hne : ¬a.id = u) : a ∈ (gcAccount db u).accounts := by
  unfold gcAccount
  split
  · exact List.mem_filter.mpr ⟨ha, by simpa using hne⟩
  · exact ha

/-- The placeholder account table after collection: unchanged when some
transfer still references the id, filtered clean of the id otherwise. -/
theorem gcAccount_accounts (db : DB) (u : ℕ) :
    ((∃ t2 ∈ db.transfers, t2.sender = u ∨ t2.receiver = u) →
      (gcAccount db u).accounts = db.accounts) ∧
    (¬(∃ t2 ∈ db.transfers, t2.sender = u ∨ t2.receiver = u) →
      (gcAccount db u).accounts = db.accounts.filter (fun a => ¬a.id = u)) := by
  unfold gcAccount
  by_cases hc : (db.transfers.filter (fun t => t.sender = u ∨ t.receiver = u)).length = 0
  · rw [if_pos hc]
    constructor
    · rintro ⟨t2, ht2, hp⟩
      exfalso
      have hnil := List.length_eq_zero.mp hc
      have := List.filter_eq_nil_iff.mp hnil t2 ht2
      simp [hp] at this
    · intro _
      rfl
  · rw [if_neg hc]
    constructor
    · intro _
      rfl
    · intro hno
      exfalso
      apply hc
      rw [List.length_eq_zero, List.filter_eq_nil_iff]
      intro t2 ht2 hp
      exact hno ⟨t2, ht2, by simpa using hp⟩

/-- Filtering a transfer table by platform id commutes with an id-preserving
per-row update. -/
theorem transferLookup_map (l : List Transfer) (tid : String) (f : Transfer → Transfer)
    (hf : ∀ t2, (f t2).alipay_id = t2.alipay_id) :
    (l.map f).filter (fun t2 => t2.alipay_id = tid) =
      (l.filter (fun t2 => t2.alipay_id = tid)).map f := by
  rw [List.filter_map]
  have hcomp : ((fun t2 : Transfer => decide (t2.alipay_id = tid)) ∘ f) =
      (fun t2 : Transfer => decide (t2.alipay_id = tid)) := by
    funext t2
    simp [Function.comp, hf]
  rw [hcomp]

/-! ### Claim C6: resolving a transfer's placeholder party -/

/-- Claim C6: a second statement (owner not among the transfer's parties)
bearing the id of a stored transfer with one username-bearing party and one
placeholder: the owner is written into the placeholder slot, the known party
and the owner's account survive, and the placeholder account row is removed
iff no transfer still references it; a transfer with both parties
username-bearing fails the assert, one with neither raises the
incomplete-transfer error. -/
theorem transfer_update_resolution
    (db : DB) (ownerId : ℕ) (r : RawTransaction) (txn : Transaction)
    (tid : String) (t : Transfer) (s rc oa : Account)
    (hrel : relevant r)
    (hlk : txnLookup db r.alipay_id = [txn])
    (htr : txn.transfer = some tid)
    (hord : txn.order = none)
    (hlkt : transferLookup db tid = [t])
    (hfs : findAccount db t.sender = some s)
    (hfrc : findAccount db t.receiver = some rc)
    (hown : ¬(ownerId = t.receiver ∨ ownerId = t.sender))
    (hoa : oa ∈ db.accounts) (hoaid : oa.id = ownerId)
    (hoau : oa.username.isSome) :
    (s.username.isSome → rc.username = none →
      ∃ db2, dump db ownerId r = .ok (db2, true) ∧
        db2.transfers = db.transfers.map (fun t2 =>
          if t2.alipay_id = t.alipay_id then { t2 with receiver := ownerId } else t2) ∧
        transferLookup db2 tid = [{ t with receiver := ownerId }] ∧
        s ∈ db2.accounts ∧ oa ∈ db2.accounts ∧
        ((∃ t2 ∈ db2.transfers, t2.sender = rc.id ∨ t2.receiver = rc.id) →
          db2.accounts = db.accounts) ∧
        (¬(∃ t2 ∈ db2.transfers, t2.sender = rc.id ∨ t2.receiver = rc.id) →
          db2.accounts = db.accounts.filter (fun a => ¬a.id = rc.id))) ∧
    (s.username = none → rc.username.isSome →
      ∃ db2, dump db ownerId r = .ok (db2, true) ∧
        db2.transfers = db.transfers.map (fun t2 =>
          if t2.alipay_id = t.alipay_id then { t2 with sender := ownerId } else t2) ∧
        transferLookup db2 tid = [{ t with sender := ownerId }] ∧
        rc ∈ db2.accounts ∧ oa ∈ db2.accounts ∧
        ((∃ t2 ∈ db2.transfers, t2.sender = s.id ∨ t2.receiver = s.id) →
          db2.accounts = db.accounts) ∧
        (¬(∃ t2 ∈ db2.transfers, t2.sender = s.id ∨ t2.receiver = s.id) →
          db2.accounts = db.accounts.filter (fun a => ¬a.id = s.id))) ∧
    (s.username.isSome → rc.username.isSome →
      dump db ownerId r = .error .assertionFailed) ∧
    (s.username = none → rc.username = none →
      dump db ownerId r = .error .incompleteTransfer) := by
  have htid : t.alipay_id = tid := by
    have : t ∈ db.transfers.filter (fun t2 => t2.alipay_id = tid) := by
      rw [show db.transfers.filter (fun t2 => t2.alipay_id = tid) = transferLookup db tid from rfl,
        hlkt]
      exact List.mem_singleton.mpr rfl
    simpa using (List.mem_filter.mp this).2
  have hsid : s.id = t.sender := by
    have := List.find?_some hfs
    simpa using this
  have hsmem : s ∈ db.accounts := List.mem_of_find?_eq_some hfs
  have hrcid : rc.id = t.receiver := by
    have := List.find?_some hfrc
    simpa using this
  have hrcmem : rc ∈ db.accounts := List.mem_of_find?_eq_some hfrc
  have hordb : txn.order.isSome = false := by rw [hord]; rfl
  have hpe_eq : process_existing_transaction db ownerId txn =
      (match update_existing_transfer db ownerId t with
       | .ok d => .ok (d, true)
       | .error e => .error e) := by
    simp [process_existing_transaction, htr, hordb, hlkt, hown]
  have hdump1 : dump db ownerId r =
      (match process_existing_transaction db ownerId txn with
       | .ok (d, _) => .ok (d, true)
       | .error e => .error e) := by
    unfold dump
    rw [if_pos hrel, hlk]
  have hpe_to_upd : ∀ res, update_existing_transfer db ownerId t = res →
      dump db ownerId r =
        (match res with | .ok d => .ok (d, true) | .error e => .error e) := by
    intro res hres
    rw [hdump1, hpe_eq, hres]
    cases res <;> rfl
  refine ⟨fun hA hB => ?_, fun hA hB => ?_, fun hA hB => ?_, fun hA hB => ?_⟩
  · have hBb : rc.username.isSome = false := by rw [hB]; rfl
    have hup : update_existing_transfer db ownerId t =
        .ok (gcAccount { db with transfers := db.transfers.map (fun t2 =>
          if t2.alipay_id = t.alipay_id then { t2 with receiver := ownerId } else t2) }
          rc.id) := by
      simp [update_existing_transfer, hfs, hfrc, hA, hBb]
    have hsne : ¬s.id = rc.id := by
      intro hc
      have hsr : t.sender = t.receiver := by rw [← hsid, ← hrcid, hc]
      rw [hsr, hfrc] at hfs
      have hse : s = rc := Option.some.inj hfs.symm
      rw [hse, hB] at hA
      cases hA
    have hoane : ¬oa.id = rc.id := by
      intro hc
      exact hown (Or.inl (by rw [← hoaid, hc, hrcid]))
    obtain ⟨g1, g2, _, _⟩ := gcAccount_frame
      { db with transfers := db.transfers.map (fun t2 =>
          if t2.alipay_id = t.alipay_id then { t2 with receiver := ownerId } else t2) } rc.id
    obtain ⟨gk, gd⟩ := gcAccount_accounts
      { db with transfers := db.transfers.map (fun t2 =>
          if t2.alipay_id = t.alipay_id then { t2 with receiver := ownerId } else t2) } rc.id
    refine ⟨gcAccount { db with transfers := db.transfers.map (fun t2 =>
        if t2.alipay_id = t.alipay_id then { t2 with receiver := ownerId } else t2) } rc.id,
      by rw [hpe_to_upd _ hup], g2, ?_, ?_, ?_, ?_, ?_⟩
    · have hgt : (gcAccount { db with transfers := db.transfers.map (fun t2 =>
          if t2.alipay_id = t.alipay_id then { t2 with receiver := ownerId } else t2) }
            rc.id).transfers =
          db.transfers.map (fun t2 =>
            if t2.alipay_id = t.alipay_id then { t2 with receiver := ownerId } else t2) := g2
      rw [transferLookup, hgt, transferLookup_map db.transfers tid _
        (fun t2 => by by_cases hc : t2.alipay_id = t.alipay_id <;> simp [hc])]
      rw [show db.transfers.filter (fun t2 => t2.alipay_id = tid) = transferLookup db tid from rfl,
        hlkt]
      simp
    · exact mem_gcAccount _ rc.id s hsmem hsne
    · exact mem_gcAccount _ rc.id oa hoa hoane
    · intro hex2
      rw [g2] at hex2
      exact gk hex2
    · intro hex2
      rw [g2] at hex2
      exact gd hex2
  · have hAb : s.username.isSome = false := by rw [hA]; rfl
    have hup : update_existing_transfer db ownerId t =
        .ok (gcAccount { db with transfers := db.transfers.map (fun t2 =>
          if t2.alipay_id = t.alipay_id then { t2 with sender := ownerId } else t2) }
          s.id) := by
      simp [update_existing_transfer, hfs, hfrc, hAb, hB]
    have hrcne : ¬rc.id = s.id := by
      intro hc
      have hsr : t.sender = t.receiver := by rw [← hsid, ← hrcid, hc]
      rw [hsr, hfrc] at hfs
      have hse : s = rc := Option.some.inj hfs.symm
      rw [← hse, hA] at hB
      cases hB
    have hoane : ¬oa.id = s.id := by
      intro hc
      exact hown (Or.inr (by rw [← hoaid, hc, hsid]))
    obtain ⟨g1, g2, _, _⟩ := gcAccount_frame
      { db with transfers := db.transfers.map (fun t2 =>
          if t2.alipay_id = t.alipay_id then { t2 with sender := ownerId } else t2) } s.id
    obtain ⟨gk, gd⟩ := gcAccount_accounts
      { db with transfers := db.transfers.map (fun t2 =>
          if t2.alipay_id = t.alipay_id then { t2 with sender := ownerId } else t2) } s.id
    refine ⟨gcAccount { db with transfers := db.transfers.map (fun t2 =>
        if t2.alipay_id = t.alipay_id then { t2 with sender := ownerId } else t2) } s.id,
      by rw [hpe_to_upd _ hup], g2, ?_, ?_, ?_, ?_, ?_⟩
    · have hgt : (gcAccount { db with transfers := db.transfers.map (fun t2 =>
          if t2.alipay_id = t.alipay_id then { t2 with sender := ownerId } else t2) }
            s.id).transfers =
          db.transfers.map (fun t2 =>
            if t2.alipay_id = t.alipay_id then { t2 with sender := ownerId } else t2) := g2
      rw [transferLookup, hgt, transferLookup_map db.transfers tid _
        (fun t2 => by by_cases hc : t2.alipay_id = t.alipay_id <;> simp [hc])]
      rw [show db.transfers.filter (fun t2 => t2.alipay_id = tid) = transferLookup db tid from rfl,
        hlkt]
      simp
    · exact mem_gcAccount _ s.id rc hrcmem hrcne
    · exact mem_gcAccount _ s.id oa hoa hoane
    · intro hex2
      rw [g2] at hex2
      exact gk hex2
    · intro hex2
      rw [g2] at hex2
      exact gd hex2
  · have hup : update_existing_transfer db ownerId t = .error .assertionFailed := by
      simp [update_existing_transfer, hfs, hfrc, hA, hB]
    rw [hpe_to_upd _ hup]
  · have hAb : s.username.isSome = false := by rw [hA]; rfl
    have hBb : rc.username.isSome = false := by rw [hB]; rfl
    have hup : update_existing_transfer db ownerId t = .error .incompleteTransfer := by
      simp [update_existing_transfer, hfs, hfrc, hAb, hBb]
    rw [hpe_to_upd _ hup]

/-- Claim C6 witness: the second owner's statement row for `T1` fills the
placeholder receiver slot; no transfer references the placeholder afterwards,
so its account row is collected. -/
theorem transfer_update_resolution_witness :
    ∃ db2, dump dbSharedTransfer 2 transferRow = .ok (db2, true) ∧
      db2.transfers = dbSharedTransfer.transfers.map (fun t2 =>
        if t2.alipay_id = storedTransferT1.alipay_id then { t2 with receiver := 2 }
        else t2) ∧
      transferLookup db2 "T1" = [{ storedTransferT1 with receiver := 2 }] ∧
      ownerAcct ∈ db2.accounts ∧ owner2Acct ∈ db2.accounts ∧
      ((∃ t2 ∈ db2.transfers,
          t2.sender = placeholderAcct.id ∨ t2.receiver = placeholderAcct.id) →
        db2.accounts = dbSharedTransfer.accounts) ∧
      (¬(∃ t2 ∈ db2.transfers,
          t2.sender = placeholderAcct.id ∨ t2.receiver = placeholderAcct.id) →
        db2.accounts = dbSharedTransfer.accounts.filter
          (fun a => ¬a.id = placeholderAcct.id)) :=
  (transfer_update_resolution dbSharedTransfer 2 transferRow storedTxnT1 "T1"
    storedTransferT1 ownerAcct placeholderAcct owner2Acct
    (by decide) (by decide) rfl rfl (by decide) (by decide) (by decide)
    (by decide) (by decide) rfl rfl).1 rfl rfl

/-! ### Claim C7: when the import may delete an account -/

/-- A successful `_update_existing_transfer` run: some placeholder party
(no username) was superseded, and the result is the garbage collection of its
id over a store whose account table is untouched. -/
theorem update_existing_transfer_run (db : DB) (o : ℕ) (t : Transfer) (db2 : DB)
    (h : update_existing_transfer db o t = .ok db2) :
    ∃ (uid : ℕ) (pl : Account) (db1 : DB),
      findAccount db uid = some pl ∧ pl.username = none ∧ pl.id = uid ∧
      db1.accounts = db.accounts ∧ db2 = gcAccount db1 uid := by
  unfold update_existing_transfer at h
  cases hfs : findAccount db t.sender with
  | none =>
    simp only [hfs] at h
    cases h
  | some s =>
    cases hfrc : findAccount db t.receiver with
    | none =>
      simp only [hfs, hfrc] at h
      cases h
    | some rc =>
      simp only [hfs, hfrc] at h
      by_cases hA : s.username.isSome
      · rw [if_pos hA] at h
        by_cases hB : rc.username.isSome
        · rw [if_pos hB] at h
          cases h
        · rw [if_neg hB] at h
          simp only [Except.ok.injEq] at h
          refine ⟨rc.id, rc,
            { db with transfers := db.transfers.map (fun t2 =>
                if t2.alipay_id = t.alipay_id then { t2 with receiver := o } else t2) },
            ?_, Option.not_isSome_iff_eq_none.mp hB, rfl, rfl, h.symm⟩
          rw [show rc.id = t.receiver from by simpa using List.find?_some hfrc]
          exact hfrc
      · rw [if_neg hA] at h
        by_cases hB : rc.username.isSome
        · rw [if_pos hB] at h
          simp only [Except.ok.injEq] at h
          refine ⟨s.id, s,
            { db with transfers := db.transfers.map (fun t2 =>
                if t2.alipay_id = t.alipay_id then { t2 with sender := o } else t2) },
            ?_, Option.not_isSome_iff_eq_none.mp hA, rfl, rfl, h.symm⟩
          rw [show s.id = t.sender from by simpa using List.find?_some hfs]
          exact hfs
        · rw [if_neg hB] at h
          cases h

/-- A successful `_process_existing_transaction` run either changed nothing
or ran `_update_existing_transfer` on some stored transfer. -/
theorem process_existing_run (db : DB) (o : ℕ) (txn : Transaction) (db2 : DB)
    (c : Bool) (h : process_existing_transaction db o txn = .ok (db2, c)) :
    db2 = db ∨ ∃ t, update_existing_transfer db o t = .ok db2 := by
  unfold process_existing_transaction at h
  cases hot : txn.transfer with
  | none =>
    simp only [hot] at h
    by_cases hord : txn.order.isSome
    · rw [if_pos hord] at h; cases h
    · rw [if_neg hord] at h; cases h
  | some tid =>
    simp only [hot] at h
    by_cases hord : txn.order.isSome
    · rw [if_pos hord] at h; cases h
    · rw [if_neg hord] at h
      rcases hlkt : transferLookup db tid with _ | ⟨t, rest⟩
      · simp only [hlkt] at h
        cases h
      · cases rest with
        | nil =>
          simp only [hlkt] at h
          by_cases hparty : o = t.receiver ∨ o = t.sender
          · rw [if_pos hparty] at h
            simp only [Except.ok.injEq, Prod.mk.injEq] at h
            exact Or.inl h.1.symm
          · rw [if_neg hparty] at h
            cases hu : update_existing_transfer db o t with
            | ok dbU =>
              simp only [hu, Except.ok.injEq, Prod.mk.injEq] at h
              exact Or.inr ⟨t, by rw [← h.1]; exact hu⟩
            | error e =>
              simp only [hu] at h
              cases h
        | cons t2 r2 =>
          simp only [hlkt] at h
          cases h

/-- A successful `dump` run either changed nothing, ran the transfer update
on some stored transfer, or processed the row as a new transaction. -/
theorem dump_run (db : DB) (o : ℕ) (r : RawTransaction) (db2 : DB) (b : Bool)
    (h : dump db o r = .ok (db2, b)) :
    db2 = db ∨ (∃ t, update_existing_transfer db o t = .ok db2) ∨
    (relevant r ∧ process_new_transaction db o r = .ok db2) := by
  unfold dump at h
  by_cases hrel : relevant r
  · rw [if_pos hrel] at h
    rcases hlk : txnLookup db r.alipay_id with _ | ⟨txn, rest⟩
    · simp only [hlk] at h
      cases hpn : process_new_transaction db o r with
      | ok dbN =>
        simp only [hpn, Except.ok.injEq, Prod.mk.injEq] at h
        exact Or.inr (Or.inr ⟨hrel, congrArg Except.ok h.1⟩)
      | error e =>
        simp only [hpn] at h
        cases h
    · cases rest with
      | nil =>
        simp only [hlk] at h
        cases hpe : process_existing_transaction db o txn with
        | ok p =>
          rcases p with ⟨dbE, c⟩
          simp only [hpe, Except.ok.injEq, Prod.mk.injEq] at h
          rcases process_existing_run db o txn dbE c hpe with h1 | ⟨t, h2⟩
          · exact Or.inl (by rw [← h.1, h1])
          · exact Or.inr (Or.inl ⟨t, by rw [← h.1]; exact h2⟩)
        | error e =>
          simp only [hpe] at h
          cases h
      | cons t2 r2 =>
        simp only [hlk] at h
        cases h
  · rw [if_neg hrel] at h
    simp only [Except.ok.injEq, Prod.mk.injEq] at h
    exact Or.inl h.1.symm

/-- Claim C7 (amended): processing a row deletes an account only when it is
a placeholder (no username) that no Transfer references afterwards — the
guard inspects the transfer table only, not orders. -/
theorem account_deletion_guard
    (db : DB) (ownerId : ℕ) (r : RawTransaction) (db2 : DB) (b : Bool)
    (a : Account)
    (hids : (db.accounts.map (fun a2 => a2.id)).Nodup)
    (h : dump db ownerId r = .ok (db2, b))
    (ha : a ∈ db.accounts)
    (hgone : ∀ a2 ∈ db2.accounts, a2.id ≠ a.id) :
    a.username = none ∧
    ∀ t2 ∈ db2.transfers, t2.sender ≠ a.id ∧ t2.receiver ≠ a.id := by
  rcases dump_run db ownerId r db2 b h with h1 | ⟨t, h2⟩ | ⟨hrel, h3⟩
  · rw [h1] at hgone
    exact absurd rfl (hgone a ha)
  · obtain ⟨uid, pl, db1, hfind, hplu, hplid, hacc, hdb2⟩ :=
      update_existing_transfer_run db ownerId t db2 h2
    have hplmem : pl ∈ db.accounts := List.mem_of_find?_eq_some hfind
    by_cases hc : (db1.transfers.filter
        (fun t2 => t2.sender = uid ∨ t2.receiver = uid)).length = 0
    · have hacc2 : db2.accounts = db1.accounts.filter (fun a2 => ¬a2.id = uid) := by
        rw [hdb2]
        unfold gcAccount
        rw [if_pos hc]

      have haid : a.id = uid := by
        by_contra hne
        have hmem : a ∈ db2.accounts := by
          rw [hacc2, hacc]
          exact List.mem_filter.mpr ⟨ha, by simpa using hne⟩
        exact absurd rfl (hgone a hmem)
      have hapl : a = pl :=
        List.inj_on_of_nodup_map hids ha hplmem (by rw [haid, hplid])
      constructor
      · rw [hapl]
        exact hplu
      · have htr2 : db2.transfers = db1.transfers := by
          rw [hdb2]
          exact (gcAccount_frame db1 uid).2.1
        intro t2 ht2
        rw [htr2] at ht2
        have hnil := List.filter_eq_nil_iff.mp (List.length_eq_zero.mp hc) t2 ht2
        constructor
        · intro hcon
          apply hnil
          simp [hcon, haid]
        · intro hcon
          apply hnil
          simp [hcon, haid]
    · have hacc2 : db2.accounts = db.accounts := by
        rw [hdb2]
        unfold gcAccount
        rw [if_neg hc]
        exact hacc
      exact absurd rfl (hgone a (by rw [hacc2]; exact ha))
  · obtain ⟨dbA, cid, hacct, hcase⟩ := process_new_run db db2 ownerId r hrel h3
    obtain ⟨_, _, _, hAacc⟩ :=
      getOrCreateAccountByName_frame db dbA r.counterpart cid hacct
    have hsub : a ∈ dbA.accounts := by
      rcases hAacc with h4 | h4 <;> rw [h4]
      · exact ha
      · exact List.mem_append_left _ ha
    have hmem : a ∈ db2.accounts := by
      rcases hcase with ⟨_, tr, _, _, hdb2⟩ | ⟨_, _, dbO, oid, hu, hdb2⟩
      · rw [hdb2]
        exact hsub
      · rw [hdb2]
        have hoacc := (update_or_create_order_frame dbA ownerId cid r dbO oid hu).1
        show a ∈ dbO.accounts
        rw [hoacc]
        exact hsub
    exact absurd rfl (hgone a hmem)

/-- Claim C7 witness: on a store where another transfer still references the
placeholder, the update keeps the account; the deletion guard's conclusion
holds for the placeholder deleted in the claim's counterexample store. -/
theorem account_deletion_guard_witness :
    placeholderAcct.username = none ∧
    ∀ t2 ∈ dbOrderAfterUpdate.transfers,
      t2.sender ≠ placeholderAcct.id ∧ t2.receiver ≠ placeholderAcct.id :=
  account_deletion_guard dbOrderAndTransfer 2 transferRow dbOrderAfterUpdate
    true placeholderAcct (by decide) (by decide) (by decide) (by decide)

/-- Claim C7 counterexample: the deletion guard never looks at orders — the
second owner's `T1` row deletes the placeholder account even though the
stored order `789` still references it as seller. -/
theorem account_deleted_with_order_reference :
    dump dbOrderAndTransfer 2 transferRow = .ok (dbOrderAfterUpdate, true) ∧
    (∀ a ∈ dbOrderAfterUpdate.accounts, a.id ≠ placeholderAcct.id) ∧
    (∃ o ∈ dbOrderAfterUpdate.orders, o.seller = placeholderAcct.id) := by
  refine ⟨by decide, by decide, ?_⟩
  exact ⟨⟨"789", "item", 0, 1⟩, by decide, rfl⟩

/-! ### Claim C2: re-importing an archive -/

/-- The state invariant of a transfer-only import by one statement owner:
every transaction links its own transfer (no orders), the owner is a party
of every transfer, platform ids are unique, and transactions and transfers
are in bijection on platform id. -/
structure TransferInv (db : DB) (ownerId : ℕ) : Prop where
  txn_shape : ∀ txn ∈ db.transactions, txn.order = none ∧ txn.transfer = some txn.alipay_id
  owner_party : ∀ t ∈ db.transfers, ownerId = t.sender ∨ ownerId = t.receiver
  txn_unique : ∀ a, (txnLookup db a).length ≤ 1
  txn_transfer : ∀ txn ∈ db.transactions, ∃ t, transferLookup db txn.alipay_id = [t]
  transfer_txn : ∀ t ∈ db.transfers, ∃ txn, txn ∈ db.transactions ∧ txn.alipay_id = t.alipay_id

/-- Re-processing a relevant row whose transaction is stored under the
transfer invariant is a no-op (the owner is already a party). -/
theorem dump_noop_of_covered (db : DB) (ownerId : ℕ) (r : RawTransaction)
    (inv : TransferInv db ownerId) (hrel : relevant r)
    (txn : Transaction) (hx : txnLookup db r.alipay_id = [txn]) :
    dump db ownerId r = .ok (db, true) := by
  have htxnmem : txn ∈ db.transactions := by
    have : txn ∈ txnLookup db r.alipay_id := by
      rw [hx]
      exact List.mem_singleton.mpr rfl
    exact (List.mem_filter.mp this).1
  obtain ⟨hord, htr⟩ := inv.txn_shape txn htxnmem
  obtain ⟨t, hlkt⟩ := inv.txn_transfer txn htxnmem
  have htmem : t ∈ db.transfers := by
    have : t ∈ transferLookup db txn.alipay_id := by
      rw [hlkt]
      exact List.mem_singleton.mpr rfl
    exact (List.mem_filter.mp this).1
  have hparty : ownerId = t.receiver ∨ ownerId = t.sender :=
    (inv.owner_party t htmem).symm
  have hordb : txn.order.isSome = false := by rw [hord]; rfl
  have hpe : process_existing_transaction db ownerId txn = .ok (db, false) := by
    have hshape : process_existing_transaction db ownerId txn =
        (if ownerId = t.receiver ∨ ownerId = t.sender then .ok (db, false)
         else match update_existing_transfer db ownerId t with
           | .ok d => .ok (d, true)
           | .error e => .error e) := by
      simp [process_existing_transaction, htr, hordb, hlkt]
    rw [hshape, if_pos hparty]
  have hd1 : dump db ownerId r =
      (match process_existing_transaction db ownerId txn with
       | .ok (d, _) => .ok (d, true)
       | .error e => .error e) := by
    unfold dump
    rw [if_pos hrel, hx]
  rw [hd1, hpe]

/-- One `dump` step of a transfer-only statement preserves the invariant,
preserves every stored transaction lookup, and establishes the lookup for
the row just processed. -/
theorem dump_step_transfer (db : DB) (ownerId : ℕ) (r : RawTransaction)
    (db2 : DB) (b : Bool)
    (inv : TransferInv db ownerId)
    (hcls : relevant r → classifiesTransfer r)
    (h : dump db ownerId r = .ok (db2, b)) :
    TransferInv db2 ownerId ∧
    (∀ a x, txnLookup db a = [x] → txnLookup db2 a = [x]) ∧
    (relevant r → ∃ x, txnLookup db2 r.alipay_id = [x]) := by
  by_cases hrel : relevant r
  · rcases hlk : txnLookup db r.alipay_id with _ | ⟨txn, rest⟩
    · -- new-transaction path
      have hd : dump db ownerId r =
          (match process_new_transaction db ownerId r with
           | .ok d => .ok (d, true)
           | .error e => .error e) := by
        unfold dump
        rw [if_pos hrel, hlk]
      rw [hd] at h
      cases hpn : process_new_transaction db ownerId r with
      | error e =>
        rw [hpn] at h
        cases h
      | ok dbN =>
        rw [hpn] at h
        simp only [Except.ok.injEq, Prod.mk.injEq] at h
        obtain ⟨hN, _⟩ := h
        obtain ⟨dbA, cid, hacct, hcase⟩ := process_new_run db dbN ownerId r hrel hpn
        rcases hcase with ⟨_, tr, htrid, hpart, hdbN⟩ | ⟨hncls, _, _⟩
        swap
        · exact absurd (hcls hrel) hncls
        obtain ⟨hAord, hATr, hATx, _⟩ :=
          getOrCreateAccountByName_frame db dbA r.counterpart cid hacct
        -- the stored tables after the step
        have hTx2 : db2.transactions = db.transactions ++
            [{ alipay_id := r.alipay_id, creation_date := r.created,
               payment_date := r.paid, last_modified_date := r.modified,
               amount := r.raw_amount + r.service_fee - r.refund_amount,
               order := none, transfer := some r.alipay_id, notes := r.notes }] := by
          rw [← hN, hdbN]
          show (dbA.transactions ++ _) = _
          rw [hATx]
        have hTr2 : db2.transfers = db.transfers ++ [tr] := by
          rw [← hN, hdbN]
          show (dbA.transfers ++ [tr]) = _
          rw [hATr]
        have hnewnone : ∀ x ∈ db.transactions, ¬x.alipay_id = r.alipay_id := by
          intro x hx hid
          have : x ∈ txnLookup db r.alipay_id :=
            List.mem_filter.mpr ⟨hx, by simpa using hid⟩
          rw [hlk] at this
          cases this
        have htrnone : ∀ t2 ∈ db.transfers, ¬t2.alipay_id = r.alipay_id := by
          intro t2 ht2 hid
          obtain ⟨txn2, htxn2, heq⟩ := inv.transfer_txn t2 ht2
          exact hnewnone txn2 htxn2 (by rw [heq, hid])
        have hTrF : db.transfers.filter (fun t2 => t2.alipay_id = r.alipay_id) = [] := by
          rw [List.filter_eq_nil_iff]
          intro t2 ht2
          simpa using htrnone t2 ht2
        have hTxLook : ∀ a, txnLookup db2 a = txnLookup db a ++
            (if a = r.alipay_id then
              [{ alipay_id := r.alipay_id, creation_date := r.created,
                 payment_date := r.paid, last_modified_date := r.modified,
                 amount := r.raw_amount + r.service_fee - r.refund_amount,
                 order := none, transfer := some r.alipay_id, notes := r.notes }]
             else []) := by
          intro a
          rw [txnLookup, hTx2, List.filter_append]
          congr 1
          by_cases ha : a = r.alipay_id
          · rw [if_pos ha]
            simp [ha]
          · rw [if_neg ha]
            have hne : ¬(r.alipay_id = a) := fun hc => ha hc.symm
            simp [hne]
        have hTrLook : ∀ a, transferLookup db2 a = transferLookup db a ++
            (if a = r.alipay_id then [tr] else []) := by
          intro a
          rw [transferLookup, hTr2, List.filter_append]
          congr 1
          by_cases ha : a = r.alipay_id
          · rw [if_pos ha]
            simp [htrid, ha]
          · rw [if_neg ha]
            have hne : ¬(r.alipay_id = a) := fun hc => ha hc.symm
            simp [htrid, hne]
        refine ⟨⟨?_, ?_, ?_, ?_, ?_⟩, ?_, ?_⟩
        · intro txn2 htxn2
          rw [hTx2] at htxn2
          rcases List.mem_append.mp htxn2 with h2 | h2
          · exact inv.txn_shape txn2 h2
          · rw [List.mem_singleton.mp h2]
            exact ⟨rfl, rfl⟩
        · intro t2 ht2
          rw [hTr2] at ht2
          rcases List.mem_append.mp ht2 with h2 | h2
          · exact inv.owner_party t2 h2
          · rw [List.mem_singleton.mp h2]
            exact hpart
        · intro a
          rw [hTxLook a]
          by_cases ha : a = r.alipay_id
          · rw [if_pos ha, ha, hlk]
            simp
          · rw [if_neg ha]
            simpa using inv.txn_unique a
        · intro txn2 htxn2
          rw [hTx2] at htxn2
          rcases List.mem_append.mp htxn2 with h2 | h2
          · obtain ⟨t2, ht2⟩ := inv.txn_transfer txn2 h2
            refine ⟨t2, ?_⟩
            rw [hTrLook, if_neg (hnewnone txn2 h2), ht2, List.append_nil]
          · rw [List.mem_singleton.mp h2]
            refine ⟨tr, ?_⟩
            rw [hTrLook]
            show transferLookup db r.alipay_id ++ _ = [tr]
            rw [if_pos rfl, show transferLookup db r.alipay_id = [] from hTrF]
            rfl
        · intro t2 ht2
          rw [hTr2] at ht2
          rcases List.mem_append.mp ht2 with h2 | h2
          · obtain ⟨txn2, htxn2, heq⟩ := inv.transfer_txn t2 h2
            exact ⟨txn2, by rw [hTx2]; exact List.mem_append_left _ htxn2, heq⟩
          · rw [List.mem_singleton.mp h2]
            refine ⟨_, by rw [hTx2]; exact List.mem_append_right _ (List.mem_singleton.mpr rfl), ?_⟩
            rw [htrid]
        · intro a x hax
          rw [hTxLook a]
          have ha : ¬a = r.alipay_id := by
            intro hc
            rw [hc, hlk] at hax
            cases hax
          rw [if_neg ha, hax, List.append_nil]
        · intro _
          have hw := hTxLook r.alipay_id
          rw [if_pos rfl, hlk] at hw
          simp only [List.nil_append] at hw
          exact ⟨_, hw⟩
    · cases rest with
      | nil =>
        have hd := dump_noop_of_covered db ownerId r inv hrel txn hlk
        rw [hd] at h
        simp only [Except.ok.injEq, Prod.mk.injEq] at h
        obtain ⟨h1, _⟩ := h
        rw [← h1]
        exact ⟨inv, fun a x hax => hax, fun _ => ⟨txn, hlk⟩⟩
      | cons y ys =>
        have hd : dump db ownerId r = .error .multipleObjectsReturned := by
          unfold dump
          rw [if_pos hrel, hlk]
        rw [hd] at h
        cases h
  · have hd : dump db ownerId r = .ok (db, false) := by
      unfold dump
      rw [if_neg hrel]
    rw [hd] at h
    simp only [Except.ok.injEq, Prod.mk.injEq] at h
    obtain ⟨h1, _⟩ := h
    rw [← h1]
    exact ⟨inv, fun a x hax => hax, fun hr => absurd hr hrel⟩

/-- A transfer-only archive run preserves the invariant, preserves stored
lookups, and covers every relevant row it processed. -/
theorem processRows_inv (ownerId : ℕ) (rows : List RawTransaction) :
    ∀ db db1, TransferInv db ownerId →
      (∀ r2 ∈ rows, relevant r2 → classifiesTransfer r2) →
      processRows db ownerId rows = .ok db1 →
      TransferInv db1 ownerId ∧
      (∀ a x, txnLookup db a = [x] → txnLookup db1 a = [x]) ∧
      (∀ r2 ∈ rows, relevant r2 → ∃ x, txnLookup db1 r2.alipay_id = [x]) := by
  induction rows with
  | nil =>
    intro db db1 inv _ h
    cases h
    exact ⟨inv, fun a x hax => hax, fun r2 h2 => absurd h2 (List.not_mem_nil r2)⟩
  | cons r rest ih =>
    intro db db1 inv hcls h
    unfold processRows at h
    cases hd : dump db ownerId r with
    | ok p =>
      rcases p with ⟨dbm, bm⟩
      simp only [hd] at h
      obtain ⟨invm, monom, hitm⟩ :=
        dump_step_transfer db ownerId r dbm bm inv
          (hcls r (List.mem_cons_self r rest)) hd
      obtain ⟨inv1, mono1, hit1⟩ :=
        ih dbm db1 invm (fun r2 h2 => hcls r2 (List.mem_cons_of_mem r h2)) h
      refine ⟨inv1, fun a x hx => mono1 a x (monom a x hx), ?_⟩
      intro r2 hr2 hrel2
      rcases List.mem_cons.mp hr2 with heq | h2
      · obtain ⟨x, hx⟩ := hitm (heq ▸ hrel2)
        refine ⟨x, ?_⟩
        rw [heq]
        exact mono1 _ x hx
      · exact hit1 r2 h2 hrel2
    | error e =>
      simp only [hd] at h
      cases h

/-- Under the invariant, re-running an archive whose relevant rows are all
covered changes nothing. -/
theorem processRows_noop (ownerId : ℕ) (rows : List RawTransaction) :
    ∀ db, TransferInv db ownerId →
      (∀ r2 ∈ rows, relevant r2 → ∃ x, txnLookup db r2.alipay_id = [x]) →
      processRows db ownerId rows = .ok db := by
  induction rows with
  | nil =>
    intro db _ _
    rfl
  | cons r rest ih =>
    intro db inv hcov
    have hrest := fun r2 h2 => hcov r2 (List.mem_cons_of_mem r h2)
    by_cases hrel : relevant r
    · obtain ⟨txn, hx⟩ := hcov r (List.mem_cons_self r rest) hrel
      have hd := dump_noop_of_covered db ownerId r inv hrel txn hx
      unfold processRows
      rw [hd]
      exact ih db inv hrest
    · have hd : dump db ownerId r = .ok (db, false) := by
        unfold dump
        rw [if_neg hrel]
      unfold processRows
      rw [hd]
      exact ih db inv hrest

/-- Claim C2 (amended): starting from a store with no transactions and no
transfers, an archive all of whose relevant rows classify as transfers is
idempotent — the second run completes and leaves the store exactly as the
first run left it. -/
theorem archive_idempotent_for_transfers
    (db db1 : DB) (ownerId : ℕ) (rows : List RawTransaction)
    (hTx : db.transactions = []) (hTr : db.transfers = [])
    (hcls : ∀ r2 ∈ rows, relevant r2 → classifiesTransfer r2)
    (h1 : processRows db ownerId rows = .ok db1) :
    processRows db1 ownerId rows = .ok db1 := by
  have inv0 : TransferInv db ownerId := by
    refine ⟨?_, ?_, ?_, ?_, ?_⟩
    · intro txn htxn
      rw [hTx] at htxn
      cases htxn
    · intro t ht
      rw [hTr] at ht
      cases ht
    · intro a
      rw [txnLookup, hTx]
      simp
    · intro txn htxn
      rw [hTx] at htxn
      cases htxn
    · intro t ht
      rw [hTr] at ht
      cases ht
  obtain ⟨inv1, _, hcov⟩ := processRows_inv ownerId rows db db1 inv0 hcls h1
  exact processRows_noop ownerId rows db1 inv1 hcov

/-- Claim C2 witness: the one-transfer archive, already imported once into
the owner-only store, re-imports as a no-op. -/
theorem archive_idempotent_for_transfers_witness :
    processRows dbAfterTransferRow 0 [transferRow] = .ok dbAfterTransferRow :=
  archive_idempotent_for_transfers dbOwner dbAfterTransferRow 0 [transferRow]
    rfl rfl (by decide) (by decide)

/-- Claim C2 counterexample: an archive with one order row imports once, but
the second run raises `NotImplementedError` when it meets the stored
transaction instead of completing unchanged. -/
theorem reprocessing_order_row_not_implemented :
    processRows dbOwner 0 [orderRowBar] = .ok dbAfterOrderRow ∧
    processRows dbAfterOrderRow 0 [orderRowBar] = .error .notImplemented :=
  ⟨by decide, by decide⟩

end Fenxibao
